import Mathlib

/-!
# goldmark-figures: a lone image in a paragraph rendered as a figure

A shallow embedding of `figure.go` (package `figures`): the classification
predicate `isFigure` and the two node renderers `renderParagraph` and
`renderImage`, over a model of the host's syntax tree, output writer and
traversal.

Modelling conventions.

* A syntax tree is a finite rose tree `Node`.  The Go type of a node (`*ast.Image`,
  `*ast.Text`, ...) with the fields that go with it is the constructor of `Data`;
  `Kind()` is read off that constructor.
* A nil `ast.Node` is `none`.  A method call on nil and a failed type assertion are
  Go panics: `Except.error` with a `Panic`.
* `Parent()` is not stored in the tree: a renderer receives the node together with
  what its `Parent()` returns (`parent : Option Node`), and the traversal supplies it.
* Pointer equality of two children of one node is equality of their positions in
  the child list (`ChildPtr.index`).
* Byte slices and strings are `String`; `source` is already resolved, so a text node
  carries the bytes of its segment.
* `util.BufWriter` is an interface: the renderers are written against any
  implementation `BufWriter σ`; every write returns the new writer state and the
  error, which the renderers drop exactly where the Go code drops it.
* Functions of the host library that the renderers call are the fields of `Host`
  and of `Config`; they are parameters of every definition and theorem.
-/

namespace Figures

/-! ## The host's syntax tree -/

/-- Node kinds, `ast.NodeKind`. -/
inductive NodeKind
  | KindDocument
  | KindParagraph
  | KindImage
  | KindText
  | KindEmphasis
  | KindLink
  | KindOther (name : String)
  deriving DecidableEq, Repr

/-- A node attribute, `ast.Attribute`. -/
structure Attribute where
  Name : String
  Value : String
  deriving DecidableEq, Repr

/-- The Go type of a node and the fields of that type. -/
inductive Data
  | Document
  | Paragraph
  | Image (Destination : String) (Title : Option String)
  | Text (Value : String) (SoftLineBreak : Bool)
  | Emphasis (Level : Nat)
  | Link (Destination : String) (Title : Option String)
  | Other (name : String)
  deriving DecidableEq, Repr

/-- A node with its attributes (`none` is a nil slice) and its children in order. -/
inductive Node where
  | mk (data : Data) (attributes : Option (List Attribute)) (children : List Node)
  deriving Repr

/-- The typed payload of a node. -/
def Node.data : Node → Data
  | .mk d _ _ => d

/-- The method `Attributes()`. -/
def Node.Attributes : Node → Option (List Attribute)
  | .mk _ a _ => a

/-- The children of a node, first to last. -/
def Node.children : Node → List Node
  | .mk _ _ cs => cs

/-- The method `Kind()`. -/
def Node.Kind (n : Node) : NodeKind :=
  match n.data with
  | .Document => .KindDocument
  | .Paragraph => .KindParagraph
  | .Image _ _ => .KindImage
  | .Text _ _ => .KindText
  | .Emphasis _ => .KindEmphasis
  | .Link _ _ => .KindLink
  | .Other name => .KindOther name

/-- A pointer to a child: its position among its siblings and the node there. -/
structure ChildPtr where
  index : Nat
  node : Node

/-- The method `FirstChild()`; `none` is nil. -/
def Node.FirstChild (n : Node) : Option ChildPtr :=
  match n.children with
  | [] => none
  | c :: _ => some ⟨0, c⟩

/-- The method `LastChild()`; `none` is nil. -/
def Node.LastChild (n : Node) : Option ChildPtr :=
  match n.children.getLast? with
  | none => none
  | some c => some ⟨n.children.length - 1, c⟩

/-- Comparison `a == b` of two child pointers of one node. -/
def samePointer : Option ChildPtr → Option ChildPtr → Bool
  | none, none => true
  | some a, some b => a.index == b.index
  | _, _ => false

/-- The method `HasChildren()`: the first child is not nil. -/
def Node.HasChildren (n : Node) : Bool :=
  n.FirstChild.isSome

mutual
/-- The method `Text(source)`: a text node returns its segment, every other node
(`ast.BaseNode`, which `ast.Image` inherits) the concatenation over its children. -/
def Node.Text : Node → String
  | .mk (.Text v _) _ _ => v
  | .mk _ _ cs => Node.TextOfChildren cs
/-- The loop of `BaseNode.Text` over the children. -/
def Node.TextOfChildren : List Node → String
  | [] => ""
  | c :: cs => c.Text ++ Node.TextOfChildren cs
end

/-! ## Results of a renderer call -/

/-- The traversal directive, `ast.WalkStatus`. -/
inductive WalkStatus
  | WalkStop
  | WalkSkipChildren
  | WalkContinue
  deriving DecidableEq, Repr

/-- A Go `error` value; `none` is nil. -/
abbrev Error := String

/-- A Go run-time panic. -/
inductive Panic
  | nilDereference
  | typeAssertion
  deriving DecidableEq, Repr

/-- The interface `util.BufWriter`, as far as the renderers use it. -/
structure BufWriter (σ : Type) where
  Write : σ → String → σ × Option Error
  WriteByte : σ → Char → σ × Option Error
  WriteString : σ → String → σ × Option Error

/-- A writer that keeps everything it is given and never fails. -/
def bufWriter : BufWriter String where
  Write w s := (w ++ s, none)
  WriteByte w c := (w ++ String.singleton c, none)
  WriteString w s := (w ++ s, none)

/-! ## The host library -/

/-- An attribute filter, `util.BytesFilter`, by its method `Contains`. -/
abbrev BytesFilter := String → Bool

/-- The functions and tables of the host library (`html`, `util`) that the
renderers call.  `RenderAttributes attrs filter` is what `html.RenderAttributes`
writes for the attribute list; `nodeRenderers` are the host's own renderers by
kind, each giving what it writes, its directive and its error. -/
structure Host where
  IsDangerousURL : String → Bool
  URLEscape : String → Bool → String
  EscapeHTML : String → String
  RenderAttributes : List Attribute → BytesFilter → String
  ParagraphAttributeFilter : BytesFilter
  GlobalAttributeFilter : BytesFilter
  ImageAttributeFilter : BytesFilter
  nodeRenderers :
    NodeKind → Option (Option Node → Node → Bool → String × WalkStatus × Option Error)

/-- The options `html.Config` that the renderers read; `Writer s` is what
`Config.Writer.Write` writes for the raw bytes `s`. -/
structure Config where
  Writer : String → String
  XHTML : Bool
  Unsafe : Bool

/-- The renderer, `type render struct { html.Config }`. -/
structure render where
  Config : Config

/-! ## figure.go -/

/-- Go's `a && b` where evaluating `b` may panic: `b` is reached only if `a` holds. -/
def andAlso (a : Bool) (b : Except Panic Bool) : Except Panic Bool :=
  if a then b else .ok false

/-- The function `isFigure`.  The argument may be nil, as `node.Parent()` can be;
the first statement then calls a method on nil. -/
def isFigure (node : Option Node) : Except Panic Bool :=
  match node with
  | none => .error .nilDereference
  | some node =>
    let child := node.FirstChild
    match child with
    | none => .ok (node.Kind == .KindParagraph && false)
    | some c =>
      .ok (node.Kind == .KindParagraph &&
        true &&
        samePointer child node.LastChild &&
        c.node.Kind == .KindImage &&
        c.node.HasChildren)

/-- The method `renderParagraph`.  It returns the writer afterwards, the directive
and the error; a panic aborts the call. -/
def render.renderParagraph {σ : Type} (_r : render) (H : Host) (W : BufWriter σ) (w : σ)
    (n : Node) (entering : Bool) : Except Panic (σ × WalkStatus × Option Error) := do
  let isFig ← isFigure (some n)
  let name := if isFig then "figure" else "p"
  let filter := if isFig then H.GlobalAttributeFilter else H.ParagraphAttributeFilter
  if entering then
    let w := (W.WriteByte w '<').1
    let w := (W.WriteString w name).1
    let w := match n.Attributes with
      | some attrs => (W.Write w (H.RenderAttributes attrs filter)).1
      | none => w
    let w := (W.WriteByte w '>').1
    let w := if isFig then (W.WriteByte w '\n').1 else w
    return (w, .WalkContinue, none)
  else
    let w := (W.WriteString w "</").1
    let w := (W.WriteString w name).1
    let w := (W.WriteString w ">\n").1
    return (w, .WalkContinue, none)

/-- The method `renderImage`; `parent` is what `node.Parent()` returns. -/
def render.renderImage {σ : Type} (r : render) (H : Host) (W : BufWriter σ) (w : σ)
    (parent : Option Node) (node : Node) (entering : Bool) :
    Except Panic (σ × WalkStatus × Option Error) := do
  if !entering then
    let fig ← andAlso node.HasChildren (isFigure parent)
    let w := if fig then (W.WriteString w "</figcaption>\n").1 else w
    return (w, .WalkContinue, none)
  else match node.data with
  | .Image Destination Title =>
    let w := (W.WriteString w "<img src=\"").1
    let w := if r.Config.Unsafe || !H.IsDangerousURL Destination then
        (W.Write w (H.EscapeHTML (H.URLEscape Destination true))).1
      else w
    let w := (W.WriteString w "\" alt=\"").1
    let w := (W.Write w node.Text).1
    let w := (W.WriteByte w '"').1
    let w := match Title with
      | some title =>
        let w := (W.WriteString w " title=\"").1
        let w := (W.Write w (r.Config.Writer title)).1
        (W.WriteByte w '"').1
      | none => w
    let w := match node.Attributes with
      | some attrs => (W.Write w (H.RenderAttributes attrs H.ImageAttributeFilter)).1
      | none => w
    let w := if r.Config.XHTML then (W.WriteString w " />").1 else (W.WriteString w ">").1
    let fig ← andAlso node.HasChildren (isFigure parent)
    if fig then
      let w := (W.WriteString w "\n<figcaption>").1
      return (w, .WalkContinue, none)
    else
      return (w, .WalkSkipChildren, none)
  | _ => throw .typeAssertion

/-- A `renderer.NodeRendererFunc`, with the writer state threaded through and the
node's `Parent()` passed along with the node. -/
abbrev NodeRendererFunc (σ : Type) :=
  σ → Option Node → Node → Bool → Except Panic (σ × WalkStatus × Option Error)

/-- The method `RegisterFuncs`: the two kinds this package renders and the function
registered for each. -/
def render.RegisterFuncs {σ : Type} (r : render) (H : Host) (W : BufWriter σ) :
    NodeKind → Option (NodeRendererFunc σ)
  | .KindParagraph => some (fun w _ n entering => r.renderParagraph H W w n entering)
  | .KindImage => some (fun w parent n entering => r.renderImage H W w parent n entering)
  | _ => none

/-! ## The host's traversal -/

/-- A renderer of the host for one kind, as a `NodeRendererFunc`: it writes its text. -/
def Host.nodeRendererFunc {σ : Type} (H : Host) (W : BufWriter σ) (kind : NodeKind) :
    Option (NodeRendererFunc σ) :=
  match H.nodeRenderers kind with
  | some f => some (fun w parent n entering =>
      .ok ((W.WriteString w (f parent n entering).1).1,
        (f parent n entering).2.1, (f parent n entering).2.2))
  | none => none

/-- Modelled from the spec: the callback that the host's renderer runs on every node
of the traversal (the host's `renderer.Render` is not among the sources).  The
function registered for the node's kind is called, this package's registration taking
precedence over the host's for paragraphs and images; a kind without a function is
passed over. -/
def nodeRendererFuncs {σ : Type} (r : render) (H : Host) (W : BufWriter σ) :
    NodeRendererFunc σ := fun w parent n entering =>
  match r.RegisterFuncs H W n.Kind with
  | some f => f w parent n entering
  | none =>
    match H.nodeRendererFunc W n.Kind with
    | some f => f w parent n entering
    | none => .ok (w, .WalkContinue, none)

mutual
/-- Modelled from the spec: the host's depth-first traversal (`ast.Walk` is not among
the sources).  The callback is called on entry, the children are visited in order
unless the callback asked to skip them, and the callback is called again on exit; an
error or `WalkStop` ends the traversal. -/
def walkHelper {σ : Type} (walker : NodeRendererFunc σ) (w : σ) (parent : Option Node) :
    Node → Except Panic (σ × WalkStatus × Option Error)
  | .mk d a cs =>
    match walker w parent (.mk d a cs) true with
    | .error p => .error p
    | .ok (w, status, err) =>
      if err.isSome || status == .WalkStop then .ok (w, status, err)
      else
        match (if status != .WalkSkipChildren then walkChildren walker w (some (.mk d a cs)) cs
               else .ok (w, .WalkContinue, none)) with
        | .error p => .error p
        | .ok (w, st, err) =>
          if err.isSome || st == .WalkStop then .ok (w, .WalkStop, err)
          else
            match walker w parent (.mk d a cs) false with
            | .error p => .error p
            | .ok (w, status, err) =>
              if err.isSome || status == .WalkStop then .ok (w, .WalkStop, err)
              else .ok (w, .WalkContinue, none)
/-- The loop of the traversal over the children of `parent`. -/
def walkChildren {σ : Type} (walker : NodeRendererFunc σ) (w : σ) (parent : Option Node) :
    List Node → Except Panic (σ × WalkStatus × Option Error)
  | [] => .ok (w, .WalkContinue, none)
  | c :: cs =>
    match walkHelper walker w parent c with
    | .error p => .error p
    | .ok (w, st, err) =>
      if err.isSome || st == .WalkStop then .ok (w, .WalkStop, err)
      else walkChildren walker w parent cs
end

/-! ## The pieces of the output, as the specification names them -/

/-- The rendered attributes of a node under a filter: nothing when `Attributes()` is
nil, else what `html.RenderAttributes` writes. -/
def renderedAttributes (H : Host) (n : Node) (filter : BytesFilter) : String :=
  match n.Attributes with
  | some attrs => H.RenderAttributes attrs filter
  | none => ""

/-- The value of `src`: empty for a dangerous destination unless `Unsafe` is set, else
the destination URL-escaped and then HTML-escaped. -/
def srcValue (r : render) (H : Host) (Destination : String) : String :=
  if !r.Config.Unsafe && H.IsDangerousURL Destination then ""
  else H.EscapeHTML (H.URLEscape Destination true)

/-- The title attribute: nothing for a nil title, else ` title="`, what the configured
writer writes for the title, and `"`. -/
def titleAttribute (r : render) : Option String → String
  | some title => " title=\"" ++ r.Config.Writer title ++ "\""
  | none => ""

/-- The img tag of an image node with the given destination and title. -/
def imgTag (r : render) (H : Host) (Destination : String) (Title : Option String)
    (node : Node) : String :=
  "<img src=\"" ++ srcValue r H Destination ++ "\" alt=\"" ++ node.Text ++ "\"" ++
    titleAttribute r Title ++
    renderedAttributes H node H.ImageAttributeFilter ++
    (if r.Config.XHTML then " />" else ">")

/-! ## A host for the examples -/

/-- The replacement `util.EscapeHTML` makes for one byte. -/
def escapeByte (c : Char) : String :=
  if c = '&' then "&amp;"
  else if c = '<' then "&lt;"
  else if c = '>' then "&gt;"
  else if c = '"' then "&quot;"
  else String.singleton c

/-- The host's `util.EscapeHTML`. -/
def exampleEscapeHTML (s : String) : String :=
  String.join (s.data.map escapeByte)

/-- The names of the host's `html.GlobalAttributeFilter`. -/
def globalAttributeNames : List String :=
  ["accesskey", "autocapitalize", "autofocus", "class", "contenteditable", "dir",
   "draggable", "enterkeyhint", "hidden", "id", "inert", "inputmode", "is", "itemid",
   "itemprop", "itemref", "itemscope", "itemtype", "lang", "part", "role", "slot",
   "spellcheck", "style", "tabindex", "title", "translate"]

/-- The host's `html.RenderAttributes`: the attributes whose name the filter contains or
begins with `data-`, each as a blank, the name, and the escaped value in double
quotes. -/
def exampleRenderAttributes (attrs : List Attribute) (filter : BytesFilter) : String :=
  String.join ((attrs.filter
      (fun a => filter a.Name || "data-".data.isPrefixOf a.Name.data)).map
    (fun a => " " ++ a.Name ++ "=\"" ++ exampleEscapeHTML a.Value ++ "\""))

/-- The host's test of a prefix that ignores the case of letters. -/
def hasPrefixFold (s pre : List Char) : Bool :=
  decide (pre.length ≤ s.length) &&
    (s.take pre.length).map Char.toLower == pre.map Char.toLower

/-- The host's `html.IsDangerousURL`: a `data:image/` URL is dangerous unless the image
is a png, gif, jpeg, webp or svg; any other URL is dangerous when its scheme is
`javascript:`, `vbscript:`, `file:` or `data:`. -/
def exampleIsDangerousURL (url : String) : Bool :=
  if hasPrefixFold url.data "data:image/".data && decide (11 ≤ url.data.length) then
    !(hasPrefixFold (url.data.drop 11) "png;".data ||
      hasPrefixFold (url.data.drop 11) "gif;".data ||
      hasPrefixFold (url.data.drop 11) "jpeg;".data ||
      hasPrefixFold (url.data.drop 11) "webp;".data ||
      hasPrefixFold (url.data.drop 11) "svg+xml;".data)
  else
    hasPrefixFold url.data "javascript:".data || hasPrefixFold url.data "vbscript:".data ||
      hasPrefixFold url.data "file:".data || hasPrefixFold url.data "data:".data

/-- The host's renderers for the inline kinds of the examples: text, emphasis, links. -/
def exampleNodeRenderers :
    NodeKind → Option (Option Node → Node → Bool → String × WalkStatus × Option Error)
  | .KindText => some (fun _ n entering =>
      match n.data with
      | .Text v soft =>
        (if entering then exampleEscapeHTML v ++ (if soft then "\n" else "") else "",
          .WalkContinue, none)
      | _ => ("", .WalkContinue, none))
  | .KindEmphasis => some (fun _ n entering =>
      match n.data with
      | .Emphasis level =>
        ((if entering then "<" else "</") ++ (if level = 2 then "strong" else "em") ++ ">",
          .WalkContinue, none)
      | _ => ("", .WalkContinue, none))
  | .KindLink => some (fun _ n entering =>
      match n.data with
      | .Link dest _ =>
        (if entering then "<a href=\"" ++ exampleEscapeHTML dest ++ "\">" else "</a>",
          .WalkContinue, none)
      | _ => ("", .WalkContinue, none))
  | .KindDocument => some (fun _ _ _ => ("", .WalkContinue, none))
  | _ => none

/-- A host with the behaviour of the host library on the inputs of the examples: the
attribute tables of `renderer/html`, where the paragraph filter is the global filter
itself, the host's test of dangerous URLs, and `util.URLEscape` as the identity, which
it is on the destinations of the examples (letters, digits, `.`, `/` and `:` only; on
other destinations this field does not stand for the host's function). -/
def exampleHost : Host where
  IsDangerousURL := exampleIsDangerousURL
  URLEscape url _ := url
  EscapeHTML := exampleEscapeHTML
  RenderAttributes := exampleRenderAttributes
  ParagraphAttributeFilter name := globalAttributeNames.contains name
  GlobalAttributeFilter name := globalAttributeNames.contains name
  ImageAttributeFilter name :=
    (globalAttributeNames ++ ["align", "border", "crossorigin", "decoding", "height",
      "importance", "intrinsicsize", "ismap", "loading", "referrerpolicy", "sizes",
      "srcset", "usemap", "width"]).contains name
  nodeRenderers := exampleNodeRenderers

/-- The renderer `NewRenderer()` returns without options: `html.NewConfig()`. -/
def defaultRenderer : render where
  Config := { Writer := exampleEscapeHTML, XHTML := false, Unsafe := false }

/-- A text node. -/
def text (v : String) : Node := .mk (.Text v false) none []

/-- The image of the example's first and third paragraph:
`![**Figure:** [description](/link)](image.png "title")`. -/
def exampleImage : Node :=
  .mk (.Image "image.png" (some "title")) none
    [.mk (.Emphasis 2) none [text "Figure:"], text " ",
     .mk (.Link "/link" none) none [text "description"]]

/-- The first paragraph of the example: the image alone. -/
def exampleFigure : Node := .mk .Paragraph none [exampleImage]

/-- The second paragraph of the example: `![](image.png "title")`. -/
def examplePlain : Node :=
  .mk .Paragraph none [.mk (.Image "image.png" (some "title")) none []]

/-- The third paragraph of the example: two images on two lines. -/
def exampleTwoImages : Node :=
  .mk .Paragraph none
    [exampleImage, .mk (.Text "" true) none [],
     .mk (.Image "image.png" (some "title")) none [.mk (.Emphasis 2) none [text "alt"]]]

/-- The document of the example. -/
def exampleDocument : Node :=
  .mk .Document none [exampleFigure, examplePlain, exampleTwoImages]

/-! ## Occurrences of a tag in the output -/

/-- Whether the bytes `pat` stand at the front of the bytes `l`. -/
def startsWith : List Char → List Char → Bool
  | [], _ => true
  | _ :: _, [] => false
  | p :: ps, c :: cs => p == c && startsWith ps cs

/-- Whether the bytes `pat` occur somewhere in the bytes `l`. -/
def occurs (pat : List Char) : List Char → Bool
  | [] => startsWith pat []
  | c :: cs => startsWith pat (c :: cs) || occurs pat cs

/-- The renderer with the option `html.WithUnsafe()`. -/
def unsafeRenderer : render where
  Config := { Writer := exampleEscapeHTML, XHTML := false, Unsafe := true }

/-- The renderer with the option `html.WithXHTML()`. -/
def xhtmlRenderer : render where
  Config := { Writer := exampleEscapeHTML, XHTML := true, Unsafe := false }

/-- An image with a dangerous destination, no title, no attributes and no children. -/
def dangerousImage : Node := .mk (.Image "javascript:x" none) none []

/-- Four attributes: `onclick` and `align`, which neither the paragraph filter nor the
global filter contains, `class`, which both contain, and `data-x`, which the host
renders under every filter. -/
def exampleAttributes : List Attribute :=
  [⟨"onclick", "x"⟩, ⟨"class", "wide"⟩, ⟨"align", "center"⟩, ⟨"data-x", "1"⟩]

/-- The figure paragraph of the example carrying the four attributes. -/
def figureWithOnclick : Node := .mk .Paragraph (some exampleAttributes) [exampleImage]

/-- The plain paragraph of the example carrying the four attributes. -/
def plainWithOnclick : Node :=
  .mk .Paragraph (some exampleAttributes) [.mk (.Image "image.png" (some "title")) none []]

/-- An image with attributes and a title whose alt holds bytes special to HTML, alone in
its paragraph: `width` is in the image filter, `onload` is not. -/
def rawAltImage : Node :=
  .mk (.Image "a.png" (some "T")) (some [⟨"width", "10"⟩, ⟨"onload", "x"⟩])
    [text "a<b", .mk (.Emphasis 1) none [text "&c"]]

/-- The paragraph around `rawAltImage`. -/
def rawAltFigure : Node := .mk .Paragraph none [rawAltImage]

/-- An image with an empty destination, a nil title, no attributes and no children. -/
def emptyImage : Node := .mk (.Image "" none) none []

/-- A writer on a closed sink: every write fails with the same error; the state counts
the writes that were attempted. -/
def closedWriter : BufWriter Nat where
  Write n _ := (n + 1, some "closed")
  WriteByte n _ := (n + 1, some "closed")
  WriteString n _ := (n + 1, some "closed")


/-! ## A writer that tallies the tags -/

/-- What the tallying writer keeps of the writes it was given: whether the last write
was the byte `<`, how often the string `figure` was written right after that byte (the
opening of a figure), and how often the strings that open and that close a figcaption
were written. -/
structure Tally where
  lt : Bool
  figures : Nat
  openings : Nat
  closings : Nat
  deriving DecidableEq, Repr

/-- A writer that never fails and tallies the figure and figcaption tags written. -/
def tallyWriter : BufWriter Tally where
  Write s _ := ({ s with lt := false }, none)
  WriteByte s c := ({ s with lt := c == '<' }, none)
  WriteString s x :=
    ({ lt := false,
       figures := s.figures + (if s.lt && x == "figure" then 1 else 0),
       openings := s.openings + (if x == "\n<figcaption>" then 1 else 0),
       closings := s.closings + (if x == "</figcaption>\n" then 1 else 0) }, none)

/-- Whether `renderImage` opens a figcaption on entry to the node: the node is an image
and its figure test holds. -/
def opensFigcaption (parent : Option Node) (n : Node) : Bool :=
  n.Kind == .KindImage &&
    (match andAlso n.HasChildren (isFigure parent) with
      | .ok true => true
      | _ => false)

mutual
/-- Whether neither the node nor a node below it is a paragraph, as in inline content. -/
def Node.noParagraph : Node → Bool
  | .mk d _ cs => (d != .Paragraph) && Node.noParagraphs cs
/-- Whether no node of the list and no node below one is a paragraph. -/
def Node.noParagraphs : List Node → Bool
  | [] => true
  | c :: cs => c.noParagraph && Node.noParagraphs cs
end


/-- Whether `renderParagraph` opens a figure on entry to the node: `isFigure` holds. -/
def opensFigure (n : Node) : Bool :=
  match isFigure (some n) with
  | .ok true => true
  | _ => false


/-- The host's own renderers write neither the opening nor the closing of a figcaption
as one of their pieces of text. -/
def writesNoFigcaption (H : Host) : Prop :=
  ∀ kind f, H.nodeRenderers kind = some f → ∀ (p : Option Node) (n : Node) (e : Bool),
    (f p n e).1 ≠ "\n<figcaption>" ∧ (f p n e).1 ≠ "</figcaption>\n"


/-- An image whose caption is a figure paragraph of its own: a tree that a program can
build, though the parser of Markdown does not. -/
def nestedImage : Node :=
  .mk (.Image "a.png" none) none
    [.mk .Paragraph none [.mk (.Image "b.png" none) none [text "x"]]]

/-- The paragraph around `nestedImage`, a figure whose caption holds a figure. -/
def nestedFigure : Node := .mk .Paragraph none [nestedImage]

/-- The tally a walk ends with: the figure openings, the figcaption openings and the
figcaption closings written; nothing when the walk panics. -/
def tallyOf : Except Panic (Tally × WalkStatus × Option Error) → Option (Nat × Nat × Nat)
  | .ok (s, _, _) => some (s.figures, s.openings, s.closings)
  | .error _ => none

/-- A host as `exampleHost`, but whose renderer of text asks to stop the walk, as a
renderer that a program registers for text in place of the host's may. -/
def stoppingHost : Host :=
  { exampleHost with
    nodeRenderers := fun kind =>
      match kind with
      | .KindText => some (fun _ _ _ => ("", .WalkStop, none))
      | k => exampleNodeRenderers k }


/-- The host's own renderers neither ask to stop the walk nor return an error. -/
def neverStops (H : Host) : Prop :=
  ∀ kind f, H.nodeRenderers kind = some f → ∀ (p : Option Node) (n : Node) (e : Bool),
    (f p n e).2.1 ≠ .WalkStop ∧ (f p n e).2.2 = none


/-! ## Classification -/

/-- The first child is the last child exactly when the child list is a singleton. -/
theorem firstChild_same_as_lastChild (n : Node) :
    (n.FirstChild.isSome = true ∧ samePointer n.FirstChild n.LastChild = true) ↔
      ∃ c, n.children = [c] := by
  obtain ⟨d, a, cs⟩ := n
  cases cs with
  | nil => simp [Node.FirstChild, Node.children]
  | cons c cs =>
    cases cs with
    | nil => simp [Node.FirstChild, Node.LastChild, Node.children, samePointer]
    | cons c2 cs =>
      rcases h : (c :: c2 :: cs).getLast? with _ | l
      · simp at h
      · simp [Node.FirstChild, Node.LastChild, Node.children, samePointer, h]

/-- What `isFigure` computes on a non-nil node, in terms of the child list. -/
theorem isFigure_some (n : Node) :
    isFigure (some n) = .ok (decide (n.Kind = .KindParagraph) &&
      (match n.children with
        | [c] => decide (c.Kind = .KindImage) && c.HasChildren
        | _ => false)) := by
  obtain ⟨d, a, cs⟩ := n
  cases cs with
  | nil => simp [isFigure, Node.FirstChild, Node.children]
  | cons c cs =>
    cases cs with
    | nil =>
      simp only [isFigure, Node.FirstChild, Node.children]
      rw [Except.ok.injEq, Bool.eq_iff_iff]
      simp [Node.LastChild, Node.children, samePointer, and_assoc]
    | cons c2 cs =>
      rcases h : (c :: c2 :: cs).getLast? with _ | l
      · simp at h
      · simp [isFigure, Node.FirstChild, Node.LastChild, Node.children, samePointer, h]

/-- C1: for every non-nil node, `isFigure` returns without a panic, and it returns true
exactly when the node is a paragraph, its first child exists and is the same node as
its last child (which is to say that it has exactly one child), that child is an image,
and the image has at least one child; it returns false for every node without children
and for every node that is not a paragraph. -/
theorem isFigure_iff (n : Node) :
    (∃ b, isFigure (some n) = .ok b) ∧
    (isFigure (some n) = .ok true ↔
      n.Kind = .KindParagraph ∧
      ∃ c, n.FirstChild = some c ∧ samePointer (some c) n.LastChild = true ∧
        c.node.Kind = .KindImage ∧ c.node.HasChildren = true) ∧
    (isFigure (some n) = .ok true ↔
      n.Kind = .KindParagraph ∧
      ∃ c, n.children = [c] ∧ c.Kind = .KindImage ∧ c.children ≠ []) ∧
    (n.HasChildren = false → isFigure (some n) = .ok false) ∧
    (n.Kind ≠ .KindParagraph → isFigure (some n) = .ok false) := by
  refine ⟨⟨_, isFigure_some n⟩, ?_, ?_, ?_, ?_⟩
  · obtain ⟨d, a, cs⟩ := n
    cases cs with
    | nil => simp [isFigure, Node.FirstChild, Node.children]
    | cons c cs => simp [isFigure, Node.FirstChild, Node.children, and_assoc]
  · rw [isFigure_some]
    obtain ⟨d, a, cs⟩ := n
    have hc : ∀ c : Node, c.HasChildren = true ↔ c.children ≠ [] := by
      intro c
      obtain ⟨d, a, cs⟩ := c
      cases cs <;> simp [Node.HasChildren, Node.FirstChild, Node.children]
    rcases cs with _ | ⟨c, _ | ⟨c2, cs⟩⟩ <;> simp [Node.children, hc]
  · intro h
    rw [isFigure_some]
    obtain ⟨d, a, cs⟩ := n
    cases cs with
    | nil => simp [Node.children]
    | cons c cs => simp [Node.HasChildren, Node.FirstChild, Node.children] at h
  · intro h
    rw [isFigure_some]
    simp [h]

/-! ## The renderers on the writer that keeps its input -/

/-- What `renderParagraph` writes on entry, given the classification of the node. -/
theorem renderParagraph_enter (r : render) (H : Host) (w : String) (n : Node) (b : Bool)
    (h : isFigure (some n) = .ok b) :
    r.renderParagraph H bufWriter w n true =
      .ok (w ++ (if b then "<figure" ++ renderedAttributes H n H.GlobalAttributeFilter ++ ">\n"
                 else "<p" ++ renderedAttributes H n H.ParagraphAttributeFilter ++ ">"),
        .WalkContinue, none) := by
  cases b <;> cases ha : n.Attributes <;>
    simp [render.renderParagraph, h, bufWriter, renderedAttributes, ha, bind, Except.bind,
      pure, Except.pure] <;>
    apply String.ext <;> simp

/-- What `renderParagraph` writes on exit, given the classification of the node. -/
theorem renderParagraph_exit (r : render) (H : Host) (w : String) (n : Node) (b : Bool)
    (h : isFigure (some n) = .ok b) :
    r.renderParagraph H bufWriter w n false =
      .ok (w ++ (if b then "</figure>\n" else "</p>\n"), .WalkContinue, none) := by
  cases b <;>
    simp [render.renderParagraph, h, bufWriter, bind, Except.bind, pure, Except.pure] <;>
    apply String.ext <;> simp

/-- What `renderImage` writes and returns on entry, given the outcome of its test
`node.HasChildren() && isFigure(node.Parent())`. -/
theorem renderImage_enter (r : render) (H : Host) (w : String) (parent : Option Node)
    (node : Node) (d : String) (t : Option String) (b : Bool)
    (hd : node.data = .Image d t)
    (h : andAlso node.HasChildren (isFigure parent) = .ok b) :
    r.renderImage H bufWriter w parent node true =
      .ok (w ++ imgTag r H d t node ++ (if b then "\n<figcaption>" else ""),
        (if b then .WalkContinue else .WalkSkipChildren), none) := by
  cases b <;> cases ha : node.Attributes <;> cases t <;> cases hx : r.Config.XHTML <;>
    cases hu : r.Config.Unsafe <;> cases hdg : H.IsDangerousURL d <;>
    simp [render.renderImage, h, hd, bufWriter, renderedAttributes, ha, hx, hu, hdg, imgTag,
      srcValue, titleAttribute, bind, Except.bind, pure, Except.pure] <;>
    apply String.ext <;> simp

/-- What `renderImage` writes and returns on exit, given the outcome of its test. -/
theorem renderImage_exit (r : render) (H : Host) (w : String) (parent : Option Node)
    (node : Node) (b : Bool)
    (h : andAlso node.HasChildren (isFigure parent) = .ok b) :
    r.renderImage H bufWriter w parent node false =
      .ok (w ++ (if b then "</figcaption>\n" else ""), .WalkContinue, none) := by
  cases b <;>
    simp [render.renderImage, h, bufWriter, bind, Except.bind, pure, Except.pure]

/-- Paragraphs are rendered by `renderParagraph`. -/
theorem nodeRendererFuncs_paragraph {σ : Type} (r : render) (H : Host) (W : BufWriter σ)
    (w : σ) (parent : Option Node) (n : Node) (entering : Bool)
    (h : n.Kind = .KindParagraph) :
    nodeRendererFuncs r H W w parent n entering = r.renderParagraph H W w n entering := by
  simp [nodeRendererFuncs, h, render.RegisterFuncs]

/-- Images are rendered by `renderImage`. -/
theorem nodeRendererFuncs_image {σ : Type} (r : render) (H : Host) (W : BufWriter σ)
    (w : σ) (parent : Option Node) (n : Node) (entering : Bool)
    (h : n.Kind = .KindImage) :
    nodeRendererFuncs r H W w parent n entering = r.renderImage H W w parent n entering := by
  simp [nodeRendererFuncs, h, render.RegisterFuncs]

/-- A node whose payload is an image has kind image. -/
theorem kind_of_image (n : Node) (d : String) (t : Option String)
    (h : n.data = .Image d t) : n.Kind = .KindImage := by
  simp [Node.Kind, h]

/-- The method `HasChildren()` in terms of the child list. -/
theorem hasChildren_iff (n : Node) : n.HasChildren = true ↔ n.children ≠ [] := by
  obtain ⟨d, a, cs⟩ := n
  cases cs <;> simp [Node.HasChildren, Node.FirstChild, Node.children]

/-- The text of an image is the concatenation of the texts of its children. -/
theorem text_of_image (I : Node) (d : String) (t : Option String)
    (hI : I.data = .Image d t) : I.Text = Node.TextOfChildren I.children := by
  obtain ⟨dI, aI, csI⟩ := I
  simp only [Node.data] at hI
  subst hI
  simp [Node.Text, Node.children]

/-! ## The walk of a paragraph -/

/-- The walk of a node classified as a figure around its image: the shared core of the
statements about figures. -/
theorem walk_of_figure (r : render) (H : Host) (w : String) (parent : Option Node)
    (P I : Node) (d : String) (t : Option String) (caption : String)
    (hP : P.Kind = .KindParagraph) (hPI : P.children = [I])
    (hI : I.data = .Image d t) (hIc : I.HasChildren = true)
    (hfig : isFigure (some P) = .ok true)
    (hcap : walkChildren (nodeRendererFuncs r H bufWriter)
        (w ++ "<figure" ++ renderedAttributes H P H.GlobalAttributeFilter ++ ">\n" ++
          imgTag r H d t I ++ "\n<figcaption>") (some I) I.children =
      .ok (w ++ "<figure" ++ renderedAttributes H P H.GlobalAttributeFilter ++ ">\n" ++
          imgTag r H d t I ++ "\n<figcaption>" ++ caption, .WalkContinue, none)) :
    walkHelper (nodeRendererFuncs r H bufWriter) w parent P =
      .ok (w ++ "<figure" ++ renderedAttributes H P H.GlobalAttributeFilter ++ ">\n" ++
          imgTag r H d t I ++ "\n<figcaption>" ++ caption ++ "</figcaption>\n" ++
          "</figure>\n", .WalkContinue, none) := by
  have hIk : I.Kind = .KindImage := kind_of_image I d t hI
  have htest : andAlso I.HasChildren (isFigure (some P)) = .ok true := by
    simp [andAlso, hIc, hfig]
  obtain ⟨dP, aP, csP⟩ := P
  obtain ⟨dI, aI, csI⟩ := I
  simp only [Node.children] at hPI hcap
  subst hPI
  rw [walkHelper, nodeRendererFuncs_paragraph _ _ _ _ _ _ _ hP,
    renderParagraph_enter _ _ _ _ _ hfig]
  simp only [walkChildren]
  rw [walkHelper, nodeRendererFuncs_image _ _ _ _ _ _ _ hIk,
    renderImage_enter _ _ _ _ _ _ _ _ hI htest]
  simp only [String.append_assoc, if_true, bne_iff_ne, ne_eq, Option.isSome_none,
    Bool.false_or, beq_iff_eq, reduceCtorEq, not_false_eq_true, if_false] at hcap ⊢
  rw [hcap]
  simp [nodeRendererFuncs_image _ _ _ _ _ _ _ hIk, renderImage_exit _ _ _ _ _ _ htest,
    nodeRendererFuncs_paragraph _ _ _ _ _ _ _ hP, renderParagraph_exit _ _ _ _ _ hfig,
    String.append_assoc]

/-- C2: the walk of a paragraph `P` whose only child is an image `I` with at least one
child writes `<figure`, the attributes of `P` under the global filter, `>` and a
newline, the img tag of `I` (its alt being the text of the descendants of `I`), a
newline and `<figcaption>`, then what the walk of the children of `I` writes (the
caption, rendered by the renderers registered for the kinds of those children), then
`</figcaption>`, a newline, `</figure>` and a newline. -/
theorem walk_figure (r : render) (H : Host) (w : String) (parent : Option Node)
    (P I : Node) (d : String) (t : Option String) (caption : String)
    (hP : P.Kind = .KindParagraph) (hPI : P.children = [I])
    (hI : I.data = .Image d t) (hne : I.children ≠ [])
    (hcap : walkChildren (nodeRendererFuncs r H bufWriter)
        (w ++ "<figure" ++ renderedAttributes H P H.GlobalAttributeFilter ++ ">\n" ++
          imgTag r H d t I ++ "\n<figcaption>") (some I) I.children =
      .ok (w ++ "<figure" ++ renderedAttributes H P H.GlobalAttributeFilter ++ ">\n" ++
          imgTag r H d t I ++ "\n<figcaption>" ++ caption, .WalkContinue, none)) :
    walkHelper (nodeRendererFuncs r H bufWriter) w parent P =
      .ok (w ++ "<figure" ++ renderedAttributes H P H.GlobalAttributeFilter ++ ">\n" ++
          ("<img src=\"" ++ srcValue r H d ++ "\" alt=\"" ++ Node.TextOfChildren I.children ++
            "\"" ++
            titleAttribute r t ++
            renderedAttributes H I H.ImageAttributeFilter ++
            (if r.Config.XHTML then " />" else ">")) ++
          "\n<figcaption>" ++ caption ++ "</figcaption>\n" ++
          "</figure>\n", .WalkContinue, none) := by
  have hIk : I.Kind = .KindImage := kind_of_image I d t hI
  have hIc : I.HasChildren = true := (hasChildren_iff I).2 hne
  have hfig : isFigure (some P) = .ok true := by
    rw [isFigure_some]; simp [hP, hPI, hIk, hIc]
  have hText : I.Text = Node.TextOfChildren I.children := text_of_image I d t hI
  have hw := walk_of_figure r H w parent P I d t caption hP hPI hI hIc hfig hcap
  rw [hw]
  unfold imgTag
  rw [hText]

/-- The first paragraph of the example, the image with bold and link markup in its alt
and a title, walks to the figure of the expected output. -/
theorem walk_figure_example :
    walkHelper (nodeRendererFuncs defaultRenderer exampleHost bufWriter) "" none exampleFigure =
      .ok ("<figure>\n<img src=\"image.png\" alt=\"Figure: description\" title=\"title\">\n<figcaption><strong>Figure:</strong> <a href=\"/link\">description</a></figcaption>\n</figure>\n",
        .WalkContinue, none) :=
  walk_figure defaultRenderer exampleHost "" none exampleFigure exampleImage "image.png"
    (some "title") "<strong>Figure:</strong> <a href=\"/link\">description</a>"
    rfl rfl rfl (List.cons_ne_nil _ _) rfl

/-! ## Occurrences -/

/-- The test `startsWith` decides being a prefix. -/
theorem startsWith_iff (pat l : List Char) :
    startsWith pat l = true ↔ ∃ b, l = pat ++ b := by
  induction pat generalizing l with
  | nil => simp [startsWith]
  | cons p ps ih =>
    cases l with
    | nil => simp [startsWith]
    | cons c cs =>
      simp only [startsWith, Bool.and_eq_true, beq_iff_eq, ih, List.cons_append, List.cons.injEq]
      constructor
      · rintro ⟨rfl, b, rfl⟩; exact ⟨b, rfl, rfl⟩
      · rintro ⟨b, rfl, rfl⟩; exact ⟨rfl, b, rfl⟩

/-- The test `occurs` decides occurring somewhere. -/
theorem occurs_iff (pat l : List Char) :
    occurs pat l = true ↔ ∃ a b, l = a ++ pat ++ b := by
  induction l with
  | nil =>
    simp only [occurs, startsWith_iff]
    constructor
    · rintro ⟨b, h⟩; exact ⟨[], b, by simpa using h⟩
    · rintro ⟨a, b, h⟩
      have h2 : a = [] := by
        cases a with
        | nil => rfl
        | cons x xs => simp at h
      subst h2
      exact ⟨b, by simpa using h⟩
  | cons c cs ih =>
    simp only [occurs, Bool.or_eq_true, startsWith_iff, ih]
    constructor
    · rintro (⟨b, h⟩ | ⟨a, b, h⟩)
      · exact ⟨[], b, by simpa using h⟩
      · exact ⟨c :: a, b, by simp [h]⟩
    · rintro ⟨a, b, h⟩
      cases a with
      | nil => left; exact ⟨b, by simpa using h⟩
      | cons x xs =>
        right
        simp only [List.cons_append, List.cons.injEq] at h
        exact ⟨xs, b, h.2⟩

/-- A tag opener cannot begin inside bytes that hold no `<`. -/
theorem occurs_append_clean (p : List Char) (X Y : List Char) (h : '<' ∉ X) :
    occurs ('<' :: p) (X ++ Y) = occurs ('<' :: p) Y := by
  induction X with
  | nil => rfl
  | cons x xs ih =>
    have hx : ('<' == x) = false := by
      simp only [beq_eq_false_iff_ne, ne_eq]
      intro hx; exact h (hx ▸ List.mem_cons_self _ _)
    simp only [List.cons_append, occurs, startsWith, hx, Bool.false_and, Bool.false_or]
    exact ih (fun hc => h (List.mem_cons_of_mem _ hc))

/-- A string in which the first bytes of a tag do not occur does not contain the tag. -/
theorem not_contains_of_occurs (s tag : String) (pre rest : List Char)
    (htag : tag.data = pre ++ rest) (h : occurs pre s.data = false) :
    ∀ a b : String, s ≠ a ++ tag ++ b := by
  intro a b heq
  have hd : s.data = a.data ++ pre ++ (rest ++ b.data) := by
    rw [heq]; simp [htag]
  have ho := (occurs_iff pre s.data).2 ⟨_, _, hd⟩
  rw [h] at ho
  exact Bool.noConfusion ho

/-- In a plain paragraph around an img tag whose host-rendered parts hold no `<`, no
tag begins with `<f` or with `</f`. -/
theorem plain_output_clean (A S T IA X : String)
    (hA : '<' ∉ A.data) (hS : '<' ∉ S.data) (hT : '<' ∉ T.data) (hIA : '<' ∉ IA.data)
    (hX : '<' ∉ X.data) :
    occurs "<f".data ("<p" ++ A ++ ">" ++
        ("<img src=\"" ++ S ++ "\" alt=\"" ++ "" ++ "\"" ++ T ++ IA ++ X) ++
        "</p>" ++ "\n").data = false ∧
    occurs "</f".data ("<p" ++ A ++ ">" ++
        ("<img src=\"" ++ S ++ "\" alt=\"" ++ "" ++ "\"" ++ T ++ IA ++ X) ++
        "</p>" ++ "\n").data = false := by
  constructor <;>
    simp [occurs, startsWith, occurs_append_clean, hA, hS, hT, hIA, hX]

/-- C3: the walk of a paragraph `P` whose only child is an image `I` without children
writes `<p`, the attributes of `P` under the paragraph filter, `>`, the img tag of `I`,
`</p>` and the closing newline; the alt value is the text of `I`, which is empty; and
when the parts the host renders (attributes, escaped destination, title) hold no `<`,
what is written contains no figure tag and no figcaption tag. -/
theorem walk_plain_image (r : render) (H : Host) (w : String) (parent : Option Node)
    (P I : Node) (d : String) (t : Option String)
    (hP : P.Kind = .KindParagraph) (hPI : P.children = [I])
    (hI : I.data = .Image d t) (hno : I.children = []) :
    walkHelper (nodeRendererFuncs r H bufWriter) w parent P =
      .ok (w ++ "<p" ++ renderedAttributes H P H.ParagraphAttributeFilter ++ ">" ++
          imgTag r H d t I ++ "</p>" ++ "\n", .WalkContinue, none) ∧
    I.Text = "" ∧
    imgTag r H d t I =
      "<img src=\"" ++ srcValue r H d ++ "\" alt=\"" ++ "" ++ "\"" ++
        titleAttribute r t ++
        renderedAttributes H I H.ImageAttributeFilter ++
        (if r.Config.XHTML then " />" else ">") ∧
    ('<' ∉ (renderedAttributes H P H.ParagraphAttributeFilter).data →
      '<' ∉ (srcValue r H d).data →
      (∀ title, t = some title → '<' ∉ (r.Config.Writer title).data) →
      '<' ∉ (renderedAttributes H I H.ImageAttributeFilter).data →
      ∀ tag ∈ ["<figure", "</figure>", "<figcaption>", "</figcaption>"], ∀ a b : String,
        "<p" ++ renderedAttributes H P H.ParagraphAttributeFilter ++ ">" ++
          imgTag r H d t I ++ "</p>" ++ "\n" ≠ a ++ tag ++ b) := by
  have hIk : I.Kind = .KindImage := kind_of_image I d t hI
  have hIc : I.HasChildren = false := by
    have := hasChildren_iff I
    cases hb : I.HasChildren
    · rfl
    · exact absurd hno (this.1 hb)
  have hfig : isFigure (some P) = .ok false := by
    rw [isFigure_some]; simp [hP, hPI, hIk, hIc]
  have htest : andAlso I.HasChildren (isFigure (some P)) = .ok false := by
    simp [andAlso, hIc]
  have hText : I.Text = "" := by
    obtain ⟨dI, aI, csI⟩ := I
    simp only [Node.children] at hno
    simp only [Node.data] at hI
    subst hno hI
    simp [Node.Text, Node.TextOfChildren]
  refine ⟨?_, hText, ?_, ?_⟩
  · obtain ⟨dP, aP, csP⟩ := P
    obtain ⟨dI, aI, csI⟩ := I
    simp only [Node.children] at hPI
    subst hPI
    rw [walkHelper, nodeRendererFuncs_paragraph _ _ _ _ _ _ _ hP,
      renderParagraph_enter _ _ _ _ _ hfig]
    simp only [walkChildren]
    rw [walkHelper, nodeRendererFuncs_image _ _ _ _ _ _ _ hIk,
      renderImage_enter _ _ _ _ _ _ _ _ hI htest]
    simp [nodeRendererFuncs_image _ _ _ _ _ _ _ hIk, renderImage_exit _ _ _ _ _ _ htest,
      nodeRendererFuncs_paragraph _ _ _ _ _ _ _ hP, renderParagraph_exit _ _ _ _ _ hfig,
      String.append_assoc]
  · simp [imgTag, hText]
  · intro hA hS hT hIA tag htag
    have hT2 : '<' ∉ (titleAttribute r t).data := by
      cases t with
      | none => simp [titleAttribute]
      | some title => simpa [titleAttribute] using hT title rfl
    have hX : '<' ∉ (if r.Config.XHTML then " />" else ">").data := by
      cases r.Config.XHTML <;> simp
    have key := plain_output_clean _ _ _ _ _ hA hS hT2 hIA hX
    have hopen : occurs "<f".data ("<p" ++ renderedAttributes H P H.ParagraphAttributeFilter ++
        ">" ++ imgTag r H d t I ++ "</p>" ++ "\n").data = false := by
      unfold imgTag; rw [hText]; exact key.1
    have hclose : occurs "</f".data ("<p" ++ renderedAttributes H P H.ParagraphAttributeFilter ++
        ">" ++ imgTag r H d t I ++ "</p>" ++ "\n").data = false := by
      unfold imgTag; rw [hText]; exact key.2
    simp only [List.mem_cons, List.mem_singleton, List.not_mem_nil, or_false] at htag
    rcases htag with rfl | rfl | rfl | rfl
    · exact not_contains_of_occurs _ _ "<f".data "igure".data rfl hopen
    · exact not_contains_of_occurs _ _ "</f".data "igure>".data rfl hclose
    · exact not_contains_of_occurs _ _ "<f".data "igcaption>".data rfl hopen
    · exact not_contains_of_occurs _ _ "</f".data "igcaption>".data rfl hclose

/-- The second paragraph of the example, an image with an empty alt and a title, walks
to the plain paragraph of the expected output, which holds no figure and no figcaption
tag. -/
theorem walk_plain_image_example :
    walkHelper (nodeRendererFuncs defaultRenderer exampleHost bufWriter) "" none examplePlain =
      .ok ("<p><img src=\"image.png\" alt=\"\" title=\"title\"></p>\n", .WalkContinue, none) ∧
    ∀ tag ∈ ["<figure", "</figure>", "<figcaption>", "</figcaption>"], ∀ a b : String,
      "<p><img src=\"image.png\" alt=\"\" title=\"title\"></p>\n" ≠ a ++ tag ++ b :=
  have h := walk_plain_image defaultRenderer exampleHost "" none examplePlain
    (.mk (.Image "image.png" (some "title")) none []) "image.png" (some "title")
    rfl rfl rfl rfl
  ⟨h.1, h.2.2.2 (by decide) (by decide)
    (fun title ht => by cases ht; decide) (by decide)⟩

/-- A tag opener does not occur in bytes that hold no `<`. -/
theorem occurs_clean (p : List Char) (X : List Char) (h : '<' ∉ X) :
    occurs ('<' :: p) X = false := by
  have h2 := occurs_append_clean p X [] h
  simpa [occurs, startsWith] using h2

/-- In an img tag whose alt text and host-rendered parts hold no `<`, no tag begins
with `<f`. -/
theorem img_output_clean (S A T IA X : String)
    (hS : '<' ∉ S.data) (hA : '<' ∉ A.data) (hT : '<' ∉ T.data) (hIA : '<' ∉ IA.data)
    (hX : '<' ∉ X.data) :
    occurs "<f".data
      ("<img src=\"" ++ S ++ "\" alt=\"" ++ A ++ "\"" ++ T ++ IA ++ X).data = false := by
  simp [occurs, startsWith, occurs_append_clean, occurs_clean, hS, hA, hT, hIA, hX]

/-- The img tag of an image whose alt text and host-rendered parts hold no `<` does not
contain `<figcaption>`. -/
theorem imgTag_no_figcaption (r : render) (H : Host) (d : String) (t : Option String)
    (I : Node)
    (hS : '<' ∉ (srcValue r H d).data) (hA : '<' ∉ I.Text.data)
    (hT : ∀ title, t = some title → '<' ∉ (r.Config.Writer title).data)
    (hIA : '<' ∉ (renderedAttributes H I H.ImageAttributeFilter).data) :
    ∀ a b : String, imgTag r H d t I ≠ a ++ "<figcaption>" ++ b := by
  have hT2 : '<' ∉ (titleAttribute r t).data := by
    cases t with
    | none => simp [titleAttribute]
    | some title => simpa [titleAttribute] using hT title rfl
  have hX : '<' ∉ (if r.Config.XHTML then " />" else ">").data := by
    cases r.Config.XHTML <;> simp
  exact not_contains_of_occurs _ _ "<f".data "igcaption>".data rfl
    (img_output_clean _ _ _ _ _ hS hA hT2 hIA hX)

/-- A node with more than one child is not a figure. -/
theorem isFigure_of_two_children (P : Node) (h : 2 ≤ P.children.length) :
    isFigure (some P) = .ok false := by
  rw [isFigure_some]
  obtain ⟨d, a, cs⟩ := P
  rcases cs with _ | ⟨c, _ | ⟨c2, cs⟩⟩ <;> simp [Node.children] at h ⊢

/-- C4: for a paragraph (indeed any node) with more than one child, `renderParagraph`
writes the plain opening `<p`, attributes under the paragraph filter, `>`, and the
closing `</p>` with a newline; and for every image `I` among its children, whatever the
image contains,
`renderImage` on entry writes the img tag and nothing after it (no `<figcaption>`
anywhere when the alt text and the host-rendered parts hold no `<`) and returns
`WalkSkipChildren`, and on exit writes nothing. -/
theorem paragraph_of_several_children (r : render) (H : Host) (P : Node)
    (h : 2 ≤ P.children.length) :
    (∀ w : String, r.renderParagraph H bufWriter w P true =
      .ok (w ++ "<p" ++ renderedAttributes H P H.ParagraphAttributeFilter ++ ">",
        .WalkContinue, none)) ∧
    (∀ w : String, r.renderParagraph H bufWriter w P false =
      .ok (w ++ "</p>\n", .WalkContinue, none)) ∧
    (∀ I ∈ P.children, ∀ (d : String) (t : Option String), I.data = .Image d t →
      (∀ w : String, r.renderImage H bufWriter w (some P) I true =
        .ok (w ++ imgTag r H d t I, .WalkSkipChildren, none)) ∧
      (∀ w : String, r.renderImage H bufWriter w (some P) I false =
        .ok (w, .WalkContinue, none)) ∧
      ('<' ∉ (srcValue r H d).data → '<' ∉ I.Text.data →
        (∀ title, t = some title → '<' ∉ (r.Config.Writer title).data) →
        '<' ∉ (renderedAttributes H I H.ImageAttributeFilter).data →
        ∀ a b : String, imgTag r H d t I ≠ a ++ "<figcaption>" ++ b)) := by
  have hfig := isFigure_of_two_children P h
  refine ⟨?_, ?_, ?_⟩
  · intro w
    rw [renderParagraph_enter _ _ _ _ _ hfig]
    simp [String.append_assoc]
  · intro w
    rw [renderParagraph_exit _ _ _ _ _ hfig]
    simp
  · intro I _ d t hI
    have htest : andAlso I.HasChildren (isFigure (some P)) = .ok false := by
      cases hc : I.HasChildren <;> simp [andAlso, hfig]
    refine ⟨?_, ?_, imgTag_no_figcaption r H d t I⟩
    · intro w
      rw [renderImage_enter _ _ _ _ _ _ _ _ hI htest]
      simp
    · intro w
      rw [renderImage_exit _ _ _ _ _ _ htest]
      simp

/-- The third paragraph of the example, two images with markup in their alt on two
lines: the paragraph is plain, both images are skipped over without a figcaption, and
the walk gives the paragraph of the expected output. -/
theorem paragraph_of_several_children_example :
    ((∀ w : String, defaultRenderer.renderParagraph exampleHost bufWriter w exampleTwoImages true =
        .ok (w ++ "<p" ++ "" ++ ">", .WalkContinue, none)) ∧
      (∀ w : String, defaultRenderer.renderParagraph exampleHost bufWriter w exampleTwoImages false =
        .ok (w ++ "</p>\n", .WalkContinue, none)) ∧
      (∀ w : String, defaultRenderer.renderImage exampleHost bufWriter w (some exampleTwoImages)
          exampleImage true =
        .ok (w ++ "<img src=\"image.png\" alt=\"Figure: description\" title=\"title\">",
          .WalkSkipChildren, none)) ∧
      (∀ w : String, defaultRenderer.renderImage exampleHost bufWriter w (some exampleTwoImages)
          exampleImage false = .ok (w, .WalkContinue, none))) ∧
    walkHelper (nodeRendererFuncs defaultRenderer exampleHost bufWriter) "" none
        exampleTwoImages =
      .ok ("<p><img src=\"image.png\" alt=\"Figure: description\" title=\"title\">\n<img src=\"image.png\" alt=\"alt\" title=\"title\"></p>\n",
        .WalkContinue, none) :=
  have h := paragraph_of_several_children defaultRenderer exampleHost exampleTwoImages
    (by decide)
  have hI := h.2.2 exampleImage (List.mem_cons_self _ _) "image.png" (some "title") rfl
  ⟨⟨h.1, h.2.1, hI.1, hI.2.1⟩, rfl⟩

/-- C5: a paragraph whose only child is an image with a non-empty alt text (the `Text`
of the image) is classified as a figure by `isFigure`, and its walk writes a figure in
which the img tag is followed by a figcaption holding what the walk of the image's
children, the alt content, writes. -/
theorem figure_of_nonempty_alt (r : render) (H : Host) (P I : Node) (d : String)
    (t : Option String)
    (hP : P.Kind = .KindParagraph) (hPI : P.children = [I])
    (hI : I.data = .Image d t) (halt : I.Text ≠ "") :
    isFigure (some P) = .ok true ∧
    ∀ (w : String) (parent : Option Node) (caption : String),
      walkChildren (nodeRendererFuncs r H bufWriter)
          (w ++ "<figure" ++ renderedAttributes H P H.GlobalAttributeFilter ++ ">\n" ++
            imgTag r H d t I ++ "\n<figcaption>") (some I) I.children =
        .ok (w ++ "<figure" ++ renderedAttributes H P H.GlobalAttributeFilter ++ ">\n" ++
            imgTag r H d t I ++ "\n<figcaption>" ++ caption, .WalkContinue, none) →
      walkHelper (nodeRendererFuncs r H bufWriter) w parent P =
        .ok (w ++ "<figure" ++ renderedAttributes H P H.GlobalAttributeFilter ++ ">\n" ++
            imgTag r H d t I ++ "\n<figcaption>" ++ caption ++ "</figcaption>\n" ++
            "</figure>\n", .WalkContinue, none) := by
  have hne : I.children ≠ [] := by
    intro hnil
    apply halt
    rw [text_of_image I d t hI, hnil]
    simp [Node.TextOfChildren]
  have hIk : I.Kind = .KindImage := kind_of_image I d t hI
  have hIc : I.HasChildren = true := (hasChildren_iff I).2 hne
  have hfig : isFigure (some P) = .ok true := by
    rw [isFigure_some]; simp [hP, hPI, hIk, hIc]
  refine ⟨hfig, ?_⟩
  intro w parent caption hcap
  exact walk_of_figure r H w parent P I d t caption hP hPI hI hIc hfig hcap

/-- The image of the example has the alt text `Figure: description`, so its paragraph is
a figure whose figcaption holds the rendered markup of the alt. -/
theorem figure_of_nonempty_alt_example :
    exampleImage.Text = "Figure: description" ∧
    isFigure (some exampleFigure) = .ok true ∧
    walkHelper (nodeRendererFuncs defaultRenderer exampleHost bufWriter) "" (some exampleDocument)
        exampleFigure =
      .ok ("<figure>\n<img src=\"image.png\" alt=\"Figure: description\" title=\"title\">\n<figcaption><strong>Figure:</strong> <a href=\"/link\">description</a></figcaption>\n</figure>\n",
        .WalkContinue, none) :=
  have h := figure_of_nonempty_alt defaultRenderer exampleHost exampleFigure exampleImage
    "image.png" (some "title") rfl rfl rfl (by decide)
  ⟨rfl, h.1, h.2 "" (some exampleDocument)
    "<strong>Figure:</strong> <a href=\"/link\">description</a>" rfl⟩

/-! ## The img tag -/

/-- C6: on entry to an image whose figure test does not panic, `renderImage` writes
`<img src="` followed by the value of `src` and by `" alt="`: the value is empty when
`Unsafe` is off and the destination is dangerous, and it is the destination URL-escaped
and then HTML-escaped when `Unsafe` is on or the destination is not dangerous. -/
theorem src_value (r : render) (H : Host) (w : String) (parent : Option Node) (node : Node)
    (d : String) (t : Option String) (b : Bool)
    (hd : node.data = .Image d t)
    (htest : andAlso node.HasChildren (isFigure parent) = .ok b) :
    (r.Config.Unsafe = false ∧ H.IsDangerousURL d = true →
      r.renderImage H bufWriter w parent node true =
        .ok (w ++ "<img src=\"" ++ "" ++ "\" alt=\"" ++
            (node.Text ++ "\"" ++ titleAttribute r t ++
              renderedAttributes H node H.ImageAttributeFilter ++
              (if r.Config.XHTML then " />" else ">") ++
              (if b then "\n<figcaption>" else "")),
          (if b then .WalkContinue else .WalkSkipChildren), none)) ∧
    (r.Config.Unsafe = true ∨ H.IsDangerousURL d = false →
      r.renderImage H bufWriter w parent node true =
        .ok (w ++ "<img src=\"" ++ H.EscapeHTML (H.URLEscape d true) ++ "\" alt=\"" ++
            (node.Text ++ "\"" ++ titleAttribute r t ++
              renderedAttributes H node H.ImageAttributeFilter ++
              (if r.Config.XHTML then " />" else ">") ++
              (if b then "\n<figcaption>" else "")),
          (if b then .WalkContinue else .WalkSkipChildren), none)) := by
  have h := renderImage_enter r H w parent node d t b hd htest
  constructor
  · rintro ⟨hu, hdg⟩
    rw [h]
    simp [imgTag, srcValue, hu, hdg, String.append_assoc]
  · intro hor
    rw [h]
    have hs : srcValue r H d = H.EscapeHTML (H.URLEscape d true) := by
      rcases hor with hu | hdg
      · simp [srcValue, hu]
      · simp [srcValue, hdg]
    simp [imgTag, hs, String.append_assoc]

/-- The destination `javascript:x` is dangerous: by default the value of `src` is empty,
and with `Unsafe` on it is the destination. -/
theorem src_value_example :
    defaultRenderer.renderImage exampleHost bufWriter "" none dangerousImage true =
      .ok ("<img src=\"\" alt=\"\">", .WalkSkipChildren, none) ∧
    unsafeRenderer.renderImage exampleHost bufWriter "" none dangerousImage true =
      .ok ("<img src=\"javascript:x\" alt=\"\">", .WalkSkipChildren, none) ∧
    defaultRenderer.renderImage exampleHost bufWriter "" (some exampleFigure) exampleImage true =
      .ok ("<img src=\"image.png\" alt=\"Figure: description\" title=\"title\">\n<figcaption>",
        .WalkContinue, none) :=
  ⟨(src_value defaultRenderer exampleHost "" none dangerousImage "javascript:x" none false
      rfl rfl).1 ⟨rfl, rfl⟩,
    (src_value unsafeRenderer exampleHost "" none dangerousImage "javascript:x" none false
      rfl rfl).2 (Or.inl rfl),
    (src_value defaultRenderer exampleHost "" (some exampleFigure) exampleImage "image.png"
      (some "title") true rfl rfl).2 (Or.inr rfl)⟩

/-! ## The attribute filters -/

/-- C7, as the code has it: the attributes of a paragraph are rendered under the global
filter when the paragraph is classified as a figure and under the paragraph filter when
it is not; the opening tag holds what `html.RenderAttributes` writes under that filter
and nothing else of the attributes.  Where the two filters are the same table, as in
the host, a figure and a plain paragraph are given the same filter. -/
theorem paragraph_filter_choice (r : render) (H : Host) (w : String) (n : Node)
    (attrs : List Attribute) (b : Bool)
    (ha : n.Attributes = some attrs) (hb : isFigure (some n) = .ok b) :
    r.renderParagraph H bufWriter w n true =
      .ok (w ++ (if b then "<figure" else "<p") ++
          H.RenderAttributes attrs (if b then H.GlobalAttributeFilter
            else H.ParagraphAttributeFilter) ++
          (if b then ">\n" else ">"), .WalkContinue, none) ∧
    (H.ParagraphAttributeFilter = H.GlobalAttributeFilter →
      r.renderParagraph H bufWriter w n true =
        .ok (w ++ (if b then "<figure" else "<p") ++
            H.RenderAttributes attrs H.ParagraphAttributeFilter ++
            (if b then ">\n" else ">"), .WalkContinue, none)) := by
  rw [renderParagraph_enter r H w n b hb]
  constructor
  · cases b <;> simp [renderedAttributes, ha, String.append_assoc]
  · intro heq
    cases b <;> simp [renderedAttributes, ha, heq, String.append_assoc]

/-- Of the attributes `onclick`, `class`, `align` and `data-x`, the figure and the plain
paragraph both keep `class` and `data-x` and drop the other two: in the host the
paragraph filter is the global filter. -/
theorem paragraph_filter_choice_example :
    defaultRenderer.renderParagraph exampleHost bufWriter "" figureWithOnclick true =
      .ok ("<figure class=\"wide\" data-x=\"1\">\n", .WalkContinue, none) ∧
    defaultRenderer.renderParagraph exampleHost bufWriter "" plainWithOnclick true =
      .ok ("<p class=\"wide\" data-x=\"1\">", .WalkContinue, none) ∧
    exampleHost.ParagraphAttributeFilter = exampleHost.GlobalAttributeFilter :=
  ⟨(paragraph_filter_choice defaultRenderer exampleHost "" figureWithOnclick
      exampleAttributes true rfl rfl).2 rfl,
    (paragraph_filter_choice defaultRenderer exampleHost "" plainWithOnclick
      exampleAttributes false rfl rfl).1,
    rfl⟩

/-- C7 fails as stated: the paragraph filter of the host disallows `onclick`, the
paragraph carrying it is classified as a figure, and the opening tag written does not
hold `onclick`, because the global filter disallows it too. -/
theorem figure_drops_disallowed_attribute :
    exampleHost.ParagraphAttributeFilter "onclick" = false ∧
    exampleHost.GlobalAttributeFilter "onclick" = false ∧
    figureWithOnclick.Attributes =
      some [⟨"onclick", "x"⟩, ⟨"class", "wide"⟩, ⟨"align", "center"⟩, ⟨"data-x", "1"⟩] ∧
    isFigure (some figureWithOnclick) = .ok true ∧
    defaultRenderer.renderParagraph exampleHost bufWriter "" figureWithOnclick true =
      .ok ("<figure class=\"wide\" data-x=\"1\">\n", .WalkContinue, none) := by
  refine ⟨by decide, by decide, rfl, rfl, rfl⟩

/-! ## The figcaption -/

/-- With a parent, or without children, the figure test of an image is decided: either
the image has children and its parent is a figure, or it has no children or its parent
is not a figure. -/
theorem figure_test_decided (parent : Option Node) (node : Node)
    (hsafe : parent ≠ none ∨ node.HasChildren = false) :
    (node.HasChildren = true ∧ isFigure parent = .ok true) ∨
      (node.HasChildren = false ∨ isFigure parent = .ok false) := by
  cases hc : node.HasChildren
  · exact Or.inr (Or.inl rfl)
  · cases parent with
    | none =>
      rcases hsafe with h | h
      · exact absurd rfl h
      · rw [hc] at h; exact absurd h (by simp)
    | some p =>
      have hs := isFigure_some p
      generalize (decide (p.Kind = .KindParagraph) &&
        match p.children with
        | [c] => decide (c.Kind = .KindImage) && c.HasChildren
        | _ => false) = b at hs
      cases b
      · exact Or.inr (Or.inr hs)
      · exact Or.inl ⟨rfl, hs⟩

/-- C8, as the code has it: on entry to an image that has a parent or has no children,
exactly one of two cases holds.  If the image has children and its parent is
classified as a figure, `renderImage` writes the img tag and after it a newline and
`<figcaption>`, and returns `WalkContinue`; if the image has no children, or its parent
is not classified as a figure, it writes the img tag and nothing after it, and returns
`WalkSkipChildren` (and the img tag holds no `<figcaption>` when the alt text and the
host-rendered parts hold no `<`). -/
theorem figcaption_on_entry (r : render) (H : Host) (w : String) (parent : Option Node)
    (node : Node) (d : String) (t : Option String)
    (hd : node.data = .Image d t)
    (hsafe : parent ≠ none ∨ node.HasChildren = false) :
    ((node.HasChildren = true ∧ isFigure parent = .ok true) ∨
      (node.HasChildren = false ∨ isFigure parent = .ok false)) ∧
    (node.HasChildren = true ∧ isFigure parent = .ok true →
      r.renderImage H bufWriter w parent node true =
        .ok (w ++ imgTag r H d t node ++ "\n<figcaption>", .WalkContinue, none)) ∧
    (node.HasChildren = false ∨ isFigure parent = .ok false →
      r.renderImage H bufWriter w parent node true =
        .ok (w ++ imgTag r H d t node, .WalkSkipChildren, none)) ∧
    ('<' ∉ (srcValue r H d).data → '<' ∉ node.Text.data →
      (∀ title, t = some title → '<' ∉ (r.Config.Writer title).data) →
      '<' ∉ (renderedAttributes H node H.ImageAttributeFilter).data →
      ∀ a b : String, imgTag r H d t node ≠ a ++ "<figcaption>" ++ b) := by
  refine ⟨figure_test_decided parent node hsafe, ?_, ?_, imgTag_no_figcaption r H d t node⟩
  · rintro ⟨hc, hf⟩
    have htest : andAlso node.HasChildren (isFigure parent) = .ok true := by
      simp [andAlso, hc, hf]
    rw [renderImage_enter r H w parent node d t true hd htest]
    simp
  · intro hor
    have htest : andAlso node.HasChildren (isFigure parent) = .ok false := by
      rcases hor with hc | hf
      · simp [andAlso, hc]
      · cases hc : node.HasChildren <;> simp [andAlso, hf]
    rw [renderImage_enter r H w parent node d t false hd htest]
    simp

/-- The image of the example opens a figcaption in the paragraph where it stands alone,
and does not in the paragraph it shares with another image; a childless image with a
nil parent writes its img tag alone. -/
theorem figcaption_on_entry_example :
    defaultRenderer.renderImage exampleHost bufWriter "" (some exampleFigure) exampleImage true =
      .ok ("<img src=\"image.png\" alt=\"Figure: description\" title=\"title\">\n<figcaption>",
        .WalkContinue, none) ∧
    defaultRenderer.renderImage exampleHost bufWriter "" (some exampleTwoImages) exampleImage
        true =
      .ok ("<img src=\"image.png\" alt=\"Figure: description\" title=\"title\">",
        .WalkSkipChildren, none) ∧
    defaultRenderer.renderImage exampleHost bufWriter "" none emptyImage true =
      .ok ("<img src=\"\" alt=\"\">", .WalkSkipChildren, none) :=
  ⟨(figcaption_on_entry defaultRenderer exampleHost "" (some exampleFigure) exampleImage
      "image.png" (some "title") rfl (Or.inl (by simp))).2.1 ⟨rfl, rfl⟩,
    (figcaption_on_entry defaultRenderer exampleHost "" (some exampleTwoImages) exampleImage
      "image.png" (some "title") rfl (Or.inl (by simp))).2.2.1 (Or.inr rfl),
    (figcaption_on_entry defaultRenderer exampleHost "" none emptyImage
      "" none rfl (Or.inr rfl)).2.2.1 (Or.inl rfl)⟩

/-- C8 fails as stated: the image of the example has children, and entered with a nil
parent `renderImage` neither writes a figcaption and returns `WalkContinue` nor returns
`WalkSkipChildren`: the call panics on the nil parent. -/
theorem figcaption_on_entry_nil_parent :
    exampleImage.HasChildren = true ∧
    defaultRenderer.renderImage exampleHost bufWriter "" none exampleImage true =
      .error .nilDereference :=
  ⟨rfl, rfl⟩

/-- C9, as the code has it: on exit from an image that has a parent or has no children,
whatever the writer, exactly one of two cases holds.  `renderImage` makes the one write
of `</figcaption>` and a newline when the image has children and its parent is
classified as a figure, and makes no write when the image has no children or its
parent is not classified as a figure; it writes no img tag and returns `WalkContinue`
with a nil error in both cases. -/
theorem figcaption_on_exit {σ : Type} (r : render) (H : Host) (W : BufWriter σ) (w : σ)
    (parent : Option Node) (node : Node)
    (hsafe : parent ≠ none ∨ node.HasChildren = false) :
    ((node.HasChildren = true ∧ isFigure parent = .ok true) ∨
      (node.HasChildren = false ∨ isFigure parent = .ok false)) ∧
    (node.HasChildren = true ∧ isFigure parent = .ok true →
      r.renderImage H W w parent node false =
        .ok ((W.WriteString w "</figcaption>\n").1, .WalkContinue, none)) ∧
    (node.HasChildren = false ∨ isFigure parent = .ok false →
      r.renderImage H W w parent node false = .ok (w, .WalkContinue, none)) ∧
    (∀ s : String, (bufWriter.WriteString s "</figcaption>\n").1 = s ++ "</figcaption>\n") := by
  refine ⟨figure_test_decided parent node hsafe, ?_, ?_, fun s => rfl⟩
  · rintro ⟨hc, hf⟩
    simp [render.renderImage, andAlso, hc, hf, bind, Except.bind, pure, Except.pure]
  · intro hor
    have htest : andAlso node.HasChildren (isFigure parent) = .ok false := by
      rcases hor with hc | hf
      · simp [andAlso, hc]
      · cases hc : node.HasChildren <;> simp [andAlso, hf]
    simp [render.renderImage, htest, bind, Except.bind, pure, Except.pure]

/-- The image of the example closes a figcaption in the paragraph where it stands
alone, and writes nothing on exit in the paragraph it shares with another image; a
childless image with a nil parent writes nothing on exit. -/
theorem figcaption_on_exit_example :
    defaultRenderer.renderImage exampleHost bufWriter "" (some exampleFigure) exampleImage
        false = .ok ("</figcaption>\n", .WalkContinue, none) ∧
    defaultRenderer.renderImage exampleHost bufWriter "" (some exampleTwoImages) exampleImage
        false = .ok ("", .WalkContinue, none) ∧
    defaultRenderer.renderImage exampleHost bufWriter "" none emptyImage false =
      .ok ("", .WalkContinue, none) :=
  ⟨(figcaption_on_exit defaultRenderer exampleHost bufWriter "" (some exampleFigure)
      exampleImage (Or.inl (by simp))).2.1 ⟨rfl, rfl⟩,
    (figcaption_on_exit defaultRenderer exampleHost bufWriter "" (some exampleTwoImages)
      exampleImage (Or.inl (by simp))).2.2.1 (Or.inr rfl),
    (figcaption_on_exit defaultRenderer exampleHost bufWriter "" none emptyImage
      (Or.inr rfl)).2.2.1 (Or.inl rfl)⟩

/-- C9 fails as stated: the image of the example has children, and on exit with a nil
parent `renderImage` does not return `WalkContinue`: the call panics on the nil
parent. -/
theorem figcaption_on_exit_nil_parent :
    exampleImage.HasChildren = true ∧
    defaultRenderer.renderImage exampleHost bufWriter "" none exampleImage false =
      .error .nilDereference :=
  ⟨rfl, rfl⟩

/-- C10: on entry to an image whose figure test does not panic, the img tag written is
`<img src="`, the value of `src`, `" alt="`, the texts of the image's children
concatenated as they are, `"`, then ` title="`, the title as the configured writer
writes it, and `"` exactly when the title is not nil, then the attributes rendered
under the image filter when the node has attributes, then `>`, or ` />` in XHTML mode;
only the figcaption opening of a figure follows it. -/
theorem img_tag_written (r : render) (H : Host) (w : String) (parent : Option Node)
    (node : Node) (d : String) (t : Option String) (b : Bool)
    (hd : node.data = .Image d t)
    (htest : andAlso node.HasChildren (isFigure parent) = .ok b) :
    r.renderImage H bufWriter w parent node true =
      .ok (w ++
          ("<img src=\"" ++
            (if r.Config.Unsafe || !H.IsDangerousURL d then H.EscapeHTML (H.URLEscape d true)
              else "") ++
            "\" alt=\"" ++ Node.TextOfChildren node.children ++ "\"" ++
            (t.elim "" fun title => " title=\"" ++ r.Config.Writer title ++ "\"") ++
            (node.Attributes.elim "" fun attrs =>
              H.RenderAttributes attrs H.ImageAttributeFilter) ++
            (if r.Config.XHTML then " />" else ">")) ++
          (if b then "\n<figcaption>" else ""),
        (if b then .WalkContinue else .WalkSkipChildren), none) := by
  rw [renderImage_enter r H w parent node d t b hd htest]
  have hT : node.Text = Node.TextOfChildren node.children := text_of_image node d t hd
  have hs : srcValue r H d =
      (if r.Config.Unsafe || !H.IsDangerousURL d then H.EscapeHTML (H.URLEscape d true)
        else "") := by
    cases hu : r.Config.Unsafe <;> cases hdg : H.IsDangerousURL d <;> simp [srcValue, hu, hdg]
  have ht : titleAttribute r t =
      t.elim "" fun title => " title=\"" ++ r.Config.Writer title ++ "\"" := by
    cases t <;> simp [titleAttribute]
  have ha : renderedAttributes H node H.ImageAttributeFilter =
      node.Attributes.elim "" fun attrs => H.RenderAttributes attrs H.ImageAttributeFilter := by
    unfold renderedAttributes
    cases node.Attributes <;> simp
  unfold imgTag
  rw [hT, hs, ht, ha]

/-- An image with a title, attributes and markup in its alt: the alt holds the bytes
`<` and `&` of the text as they are, in HTML and in XHTML mode; an image without title
and attributes has neither in its tag. -/
theorem img_tag_written_example :
    defaultRenderer.renderImage exampleHost bufWriter "" (some rawAltFigure) rawAltImage true =
      .ok ("<img src=\"a.png\" alt=\"a<b&c\" title=\"T\" width=\"10\">\n<figcaption>",
        .WalkContinue, none) ∧
    xhtmlRenderer.renderImage exampleHost bufWriter "" (some rawAltFigure) rawAltImage true =
      .ok ("<img src=\"a.png\" alt=\"a<b&c\" title=\"T\" width=\"10\" />\n<figcaption>",
        .WalkContinue, none) ∧
    defaultRenderer.renderImage exampleHost bufWriter "" none dangerousImage true =
      .ok ("<img src=\"\" alt=\"\">", .WalkSkipChildren, none) :=
  ⟨img_tag_written defaultRenderer exampleHost "" (some rawAltFigure) rawAltImage "a.png"
      (some "T") true rfl rfl,
    img_tag_written xhtmlRenderer exampleHost "" (some rawAltFigure) rawAltImage "a.png"
      (some "T") true rfl rfl,
    img_tag_written defaultRenderer exampleHost "" none dangerousImage "javascript:x"
      none false rfl rfl⟩

/-! ## Pairing of opening and closing tags -/

/-- C11: the classification of a paragraph exists and alone decides the element:
when `isFigure` holds `renderParagraph` writes `<figure`, the attributes, `>` and a
newline on entry and `</figure>` with a newline on exit; otherwise it writes `<p`, the
attributes and `>` on entry and `</p>` with a newline on exit.  For an image, the
figcaption opening is written on entry exactly when the figcaption closing is written
on exit: either both are written, or neither is, or both calls panic on a nil parent. -/
theorem tags_pair (r : render) (H : Host) (n : Node) :
    (∃ b, isFigure (some n) = .ok b) ∧
    (isFigure (some n) = .ok true →
      (∀ w : String, r.renderParagraph H bufWriter w n true =
        .ok (w ++ "<figure" ++ renderedAttributes H n H.GlobalAttributeFilter ++ ">" ++ "\n",
          .WalkContinue, none)) ∧
      (∀ w : String, r.renderParagraph H bufWriter w n false =
        .ok (w ++ "</figure>\n", .WalkContinue, none))) ∧
    (isFigure (some n) = .ok false →
      (∀ w : String, r.renderParagraph H bufWriter w n true =
        .ok (w ++ "<p" ++ renderedAttributes H n H.ParagraphAttributeFilter ++ ">",
          .WalkContinue, none)) ∧
      (∀ w : String, r.renderParagraph H bufWriter w n false =
        .ok (w ++ "</p>\n", .WalkContinue, none))) ∧
    (∀ (parent : Option Node) (I : Node) (d : String) (t : Option String),
      I.data = .Image d t →
      ((∀ w : String, r.renderImage H bufWriter w parent I true =
          .ok (w ++ imgTag r H d t I ++ "\n<figcaption>", .WalkContinue, none)) ∧
        (∀ w : String, r.renderImage H bufWriter w parent I false =
          .ok (w ++ "</figcaption>\n", .WalkContinue, none))) ∨
      ((∀ w : String, r.renderImage H bufWriter w parent I true =
          .ok (w ++ imgTag r H d t I, .WalkSkipChildren, none)) ∧
        (∀ w : String, r.renderImage H bufWriter w parent I false =
          .ok (w, .WalkContinue, none))) ∨
      ((∀ w : String, r.renderImage H bufWriter w parent I true =
          .error .nilDereference) ∧
        (∀ w : String, r.renderImage H bufWriter w parent I false =
          .error .nilDereference))) := by
  refine ⟨⟨_, isFigure_some n⟩, ?_, ?_, ?_⟩
  · intro h
    constructor
    · intro w
      rw [renderParagraph_enter r H w n true h]
      simp [String.append_assoc]
    · intro w
      rw [renderParagraph_exit r H w n true h]
      simp
  · intro h
    constructor
    · intro w
      rw [renderParagraph_enter r H w n false h]
      simp [String.append_assoc]
    · intro w
      rw [renderParagraph_exit r H w n false h]
      simp
  · intro parent I d t hd
    rcases htest : andAlso I.HasChildren (isFigure parent) with p | b
    · right; right
      have hp : p = .nilDereference := by
        cases hc : I.HasChildren
        · simp [andAlso, hc] at htest
        · cases parent with
          | none => simpa [andAlso, hc, isFigure] using htest.symm
          | some q => simp [andAlso, hc, isFigure_some] at htest
      subst hp
      constructor
      · intro w
        simp [render.renderImage, hd, htest, bind, Except.bind]
      · intro w
        simp [render.renderImage, htest, bind, Except.bind]
    · cases b
      · right; left
        constructor
        · intro w
          rw [renderImage_enter r H w parent I d t false hd htest]
          simp
        · intro w
          rw [renderImage_exit r H w parent I false htest]
          simp
      · left
        constructor
        · intro w
          rw [renderImage_enter r H w parent I d t true hd htest]
          simp
        · intro w
          rw [renderImage_exit r H w parent I true htest]
          simp

/-! ## Errors -/

/-- The figure test of an image with a non-nil parent does not panic. -/
theorem andAlso_isFigure_some (c : Bool) (p : Node) :
    ∃ b, andAlso c (isFigure (some p)) = .ok b := by
  cases c
  · exact ⟨false, rfl⟩
  · exact ⟨_, by simp only [andAlso, if_true]; exact isFigure_some p⟩

/-- On any writer, `renderParagraph` returns `WalkContinue` and a nil error. -/
theorem renderParagraph_ok {σ : Type} (r : render) (H : Host) (W : BufWriter σ) (w : σ)
    (n : Node) (entering : Bool) :
    ∃ w', r.renderParagraph H W w n entering = .ok (w', .WalkContinue, none) := by
  cases entering <;>
    simp [render.renderParagraph, isFigure_some, bind, Except.bind, pure, Except.pure]

/-- On any writer, `renderImage` returns a nil error and the directive of its figure
test, once that test does not panic. -/
theorem renderImage_ok {σ : Type} (r : render) (H : Host) (W : BufWriter σ) (w : σ)
    (parent : Option Node) (node : Node) (d : String) (t : Option String) (b : Bool)
    (hd : node.data = .Image d t)
    (htest : andAlso node.HasChildren (isFigure parent) = .ok b) :
    (∃ w', r.renderImage H W w parent node true =
      .ok (w', (if b then .WalkContinue else .WalkSkipChildren), none)) ∧
    (∃ w', r.renderImage H W w parent node false = .ok (w', .WalkContinue, none)) := by
  constructor
  · cases b <;>
      simp [render.renderImage, hd, htest, bind, Except.bind, pure, Except.pure]
  · simp [render.renderImage, htest, bind, Except.bind, pure, Except.pure]

/-- C12: the renderers raise no error of their own.  On any writer, `renderParagraph`
returns `WalkContinue` with a nil error on entry and on exit, and `renderImage` on an
image with a parent returns a nil error on entry and on exit, whatever the destination
and the title; and an image with an empty destination, which the host escapes to the
empty string, is written with an empty `src` value. -/
theorem no_error_of_their_own {σ : Type} (r : render) (H : Host) (W : BufWriter σ) (w : σ) :
    (∀ (n : Node) (entering : Bool),
      ∃ w', r.renderParagraph H W w n entering = .ok (w', .WalkContinue, none)) ∧
    (∀ (p node : Node) (d : String) (t : Option String) (entering : Bool),
      node.data = .Image d t →
      ∃ w' st, r.renderImage H W w (some p) node entering = .ok (w', st, none)) ∧
    (∀ (p node : Node) (t : Option String) (b : Bool) (s : String),
      node.data = .Image "" t →
      andAlso node.HasChildren (isFigure (some p)) = .ok b →
      H.EscapeHTML (H.URLEscape "" true) = "" →
      r.renderImage H bufWriter s (some p) node true =
        .ok (s ++ "<img src=\"" ++ "" ++ "\" alt=\"" ++
            (node.Text ++ "\"" ++ titleAttribute r t ++
              renderedAttributes H node H.ImageAttributeFilter ++
              (if r.Config.XHTML then " />" else ">") ++
              (if b then "\n<figcaption>" else "")),
          (if b then .WalkContinue else .WalkSkipChildren), none)) := by
  refine ⟨fun n entering => renderParagraph_ok r H W w n entering, ?_, ?_⟩
  · intro p node d t entering hd
    obtain ⟨b, hb⟩ := andAlso_isFigure_some node.HasChildren p
    have h := renderImage_ok r H W w (some p) node d t b hd hb
    cases entering
    · obtain ⟨w', hw⟩ := h.2
      exact ⟨w', _, hw⟩
    · obtain ⟨w', hw⟩ := h.1
      exact ⟨w', _, hw⟩
  · intro p node t b s hd htest hesc
    rw [renderImage_enter r H s (some p) node "" t b hd htest]
    have hs : srcValue r H "" = "" := by
      unfold srcValue
      split
      · rfl
      · exact hesc
    simp [imgTag, hs, String.append_assoc]

/-- An image with an empty destination and a nil title in the paragraph of the example:
no error on entry or on exit, and `src` is empty. -/
theorem no_error_of_their_own_example :
    defaultRenderer.renderImage exampleHost bufWriter "" (some examplePlain) emptyImage true =
      .ok ("<img src=\"\" alt=\"\">", .WalkSkipChildren, none) ∧
    (∃ w' st, defaultRenderer.renderImage exampleHost bufWriter "" (some examplePlain)
      emptyImage false = .ok (w', st, none)) ∧
    (∃ w', defaultRenderer.renderParagraph exampleHost closedWriter 0 examplePlain true =
      .ok (w', .WalkContinue, none)) :=
  ⟨(no_error_of_their_own defaultRenderer exampleHost bufWriter "").2.2 examplePlain
      emptyImage none false "" rfl rfl rfl,
    (no_error_of_their_own defaultRenderer exampleHost bufWriter "").2.1 examplePlain
      emptyImage "" none false rfl,
    (no_error_of_their_own defaultRenderer exampleHost closedWriter 0).1 examplePlain true⟩

/-- C13, as the code has it: the renderers discard the result of every write.  On any
writer, failing or not, both return a nil error and the directive they return when no
write fails; and where all the writes are the renderer's own (a paragraph on exit, a
paragraph without attributes on entry, an image without title and attributes on entry,
an image on exit) the calls made are the same calls in the same order, each made on
the state the one before it left, whatever that one returned. -/
theorem write_errors_discarded {σ : Type} (r : render) (H : Host) (W : BufWriter σ) (w : σ) :
    (∀ (n : Node) (b : Bool), isFigure (some n) = .ok b →
      r.renderParagraph H W w n false =
        .ok ((W.WriteString (W.WriteString (W.WriteString w "</").1
            (if b then "figure" else "p")).1 ">\n").1, .WalkContinue, none) ∧
      (n.Attributes = none →
        r.renderParagraph H W w n true =
          .ok ((if b then
              (W.WriteByte (W.WriteByte (W.WriteString (W.WriteByte w '<').1 "figure").1
                '>').1 '\n').1
            else (W.WriteByte (W.WriteString (W.WriteByte w '<').1 "p").1 '>').1),
            .WalkContinue, none)) ∧
      (∃ w', r.renderParagraph H W w n true = .ok (w', .WalkContinue, none))) ∧
    (∀ (parent : Option Node) (I : Node) (d : String) (c : Bool),
      I.data = .Image d none → I.Attributes = none →
      andAlso I.HasChildren (isFigure parent) = .ok c →
      r.renderImage H W w parent I true =
        .ok ((if c then fun s => (W.WriteString s "\n<figcaption>").1 else fun s => s)
            ((if r.Config.XHTML then fun s => (W.WriteString s " />").1
                else fun s => (W.WriteString s ">").1)
              (W.WriteByte
                (W.Write
                  (W.WriteString
                    ((if r.Config.Unsafe || !H.IsDangerousURL d then
                        fun s => (W.Write s (H.EscapeHTML (H.URLEscape d true))).1
                      else fun s => s)
                      (W.WriteString w "<img src=\"").1)
                    "\" alt=\"").1
                  I.Text).1
                '"').1),
          (if c then .WalkContinue else .WalkSkipChildren), none)) ∧
    (∀ (parent : Option Node) (I : Node) (c : Bool),
      andAlso I.HasChildren (isFigure parent) = .ok c →
      r.renderImage H W w parent I false =
        .ok ((if c then (W.WriteString w "</figcaption>\n").1 else w),
          .WalkContinue, none)) ∧
    (∀ (parent : Option Node) (I : Node) (d : String) (t : Option String) (c : Bool),
      I.data = .Image d t → andAlso I.HasChildren (isFigure parent) = .ok c →
      ∃ w', r.renderImage H W w parent I true =
        .ok (w', (if c then .WalkContinue else .WalkSkipChildren), none)) := by
  refine ⟨?_, ?_, ?_, ?_⟩
  · intro n b hb
    refine ⟨?_, ?_, ?_⟩
    · cases b <;>
        simp [render.renderParagraph, hb, bind, Except.bind, pure, Except.pure]
    · intro ha
      cases b <;>
        simp [render.renderParagraph, hb, ha, bind, Except.bind, pure, Except.pure]
    · exact renderParagraph_ok r H W w n true
  · intro parent I d c hd ha htest
    cases c <;> cases hx : r.Config.XHTML <;> cases hu : r.Config.Unsafe <;>
      cases hdg : H.IsDangerousURL d <;>
      simp [render.renderImage, hd, ha, htest, hx, hu, hdg, bind, Except.bind, pure,
        Except.pure]
  · intro parent I c htest
    cases c <;>
      simp [render.renderImage, htest, bind, Except.bind, pure, Except.pure]
  · intro parent I d t c hd htest
    exact (renderImage_ok r H W w parent I d t c hd htest).1

/-- On a closed sink the figure paragraph of the example still makes its four writes on
entry and its three on exit, and a childless image without title its six on entry, five
when the destination is dangerous and not written, each with a nil error. -/
theorem write_errors_discarded_example :
    defaultRenderer.renderParagraph exampleHost closedWriter 0 exampleFigure false =
      .ok (3, .WalkContinue, none) ∧
    defaultRenderer.renderParagraph exampleHost closedWriter 0 exampleFigure true =
      .ok (4, .WalkContinue, none) ∧
    defaultRenderer.renderImage exampleHost closedWriter 0 none emptyImage true =
      .ok (6, .WalkSkipChildren, none) ∧
    defaultRenderer.renderImage exampleHost closedWriter 0 none dangerousImage true =
      .ok (5, .WalkSkipChildren, none) ∧
    defaultRenderer.renderImage exampleHost closedWriter 0 (some exampleFigure) exampleImage
      false = .ok (1, .WalkContinue, none) :=
  have h := write_errors_discarded defaultRenderer exampleHost closedWriter 0
  ⟨(h.1 exampleFigure true rfl).1, (h.1 exampleFigure true rfl).2.1 rfl,
    h.2.1 none emptyImage "" false rfl rfl rfl,
    h.2.1 none dangerousImage "javascript:x" false rfl rfl rfl,
    h.2.2.1 (some exampleFigure) exampleImage true rfl⟩

/-- C13 fails as stated: on a sink whose every write fails, the first write of
`renderParagraph` fails, the renderer goes on to make its other three writes and
returns `WalkContinue` with a nil error; `renderImage` likewise makes all its ten
writes and returns `WalkContinue` with a nil error. -/
theorem failed_write_not_returned :
    (closedWriter.WriteByte 0 '<').2 = some "closed" ∧
    defaultRenderer.renderParagraph exampleHost closedWriter 0 exampleFigure true =
      .ok (4, .WalkContinue, none) ∧
    (closedWriter.WriteString 0 "<img src=\"").2 = some "closed" ∧
    defaultRenderer.renderImage exampleHost closedWriter 0 (some exampleFigure) exampleImage
      true = .ok (10, .WalkContinue, none) := by
  refine ⟨rfl, rfl, rfl, rfl⟩

/-! ## The parent of an image -/

/-- C16: `renderImage` reaches the classification of the parent exactly when the image
has a child.  An image without children completes on entry and on exit with a nil
error whatever its parent, nil included; an image with a child panics on entry and on
exit when its parent is nil, and completes when its parent is not nil. -/
theorem parent_inspected_iff_children {σ : Type} (r : render) (H : Host) (W : BufWriter σ)
    (w : σ) (node : Node) (d : String) (t : Option String)
    (hd : node.data = .Image d t) :
    (∀ parent, andAlso node.HasChildren (isFigure parent) =
      if node.HasChildren then isFigure parent else .ok false) ∧
    (node.HasChildren = false → ∀ (parent : Option Node) (entering : Bool),
      ∃ w' st, r.renderImage H W w parent node entering = .ok (w', st, none)) ∧
    (node.HasChildren = true → ∀ entering : Bool,
      r.renderImage H W w none node entering = .error .nilDereference) ∧
    (node.HasChildren = true → ∀ (p : Node) (entering : Bool),
      ∃ w' st, r.renderImage H W w (some p) node entering = .ok (w', st, none)) := by
  refine ⟨fun parent => rfl, ?_, ?_, ?_⟩
  · intro hc parent entering
    have htest : andAlso node.HasChildren (isFigure parent) = .ok false := by
      simp [andAlso, hc]
    have h := renderImage_ok r H W w parent node d t false hd htest
    cases entering
    · obtain ⟨w', hw⟩ := h.2
      exact ⟨w', _, hw⟩
    · obtain ⟨w', hw⟩ := h.1
      exact ⟨w', _, hw⟩
  · intro hc entering
    have htest : andAlso node.HasChildren (isFigure none) = .error .nilDereference := by
      simp [andAlso, hc, isFigure]
    cases entering
    · simp [render.renderImage, htest, bind, Except.bind]
    · simp [render.renderImage, hd, htest, bind, Except.bind]
  · intro _ p entering
    obtain ⟨b, hb⟩ := andAlso_isFigure_some node.HasChildren p
    have h := renderImage_ok r H W w (some p) node d t b hd hb
    cases entering
    · obtain ⟨w', hw⟩ := h.2
      exact ⟨w', _, hw⟩
    · obtain ⟨w', hw⟩ := h.1
      exact ⟨w', _, hw⟩

/-- The childless image of the examples renders with a nil parent; the image of the
example, which has children, panics with a nil parent on entry and on exit. -/
theorem parent_inspected_iff_children_example :
    (∀ entering : Bool, ∃ w' st,
      defaultRenderer.renderImage exampleHost bufWriter "" none dangerousImage entering =
        .ok (w', st, none)) ∧
    (∀ entering : Bool,
      defaultRenderer.renderImage exampleHost bufWriter "" none exampleImage entering =
        .error .nilDereference) :=
  ⟨fun entering => (parent_inspected_iff_children defaultRenderer exampleHost bufWriter ""
      dangerousImage "javascript:x" none rfl).2.1 rfl none entering,
    (parent_inspected_iff_children defaultRenderer exampleHost bufWriter ""
      exampleImage "image.png" (some "title") rfl).2.2.1 rfl⟩

/-! ## The traversal, phase by phase -/

/-- The walk of a list of children ends either complete, with `WalkContinue` and a nil
error, or with `WalkStop`. -/
theorem walkChildren_status {σ : Type} (F : NodeRendererFunc σ) (parent : Option Node)
    (cs : List Node) :
    ∀ (s s' : σ) (st : WalkStatus) (err : Option Error),
      walkChildren F s parent cs = .ok (s', st, err) →
      (st = .WalkContinue ∧ err = none) ∨ st = .WalkStop := by
  induction cs with
  | nil =>
    intro s s' st err h
    simp only [walkChildren, Except.ok.injEq, Prod.mk.injEq] at h
    exact Or.inl ⟨h.2.1.symm, h.2.2.symm⟩
  | cons c cs ih =>
    intro s s' st err h
    rw [walkChildren] at h
    rcases h1 : walkHelper F s parent c with p | ⟨s1, st1, e1⟩
    · simp [h1] at h
    · simp only [h1] at h
      split at h
      · simp only [Except.ok.injEq, Prod.mk.injEq] at h
        exact Or.inr h.2.1.symm
      · exact ih _ _ _ _ h

/-- The first step of the walk of a non-empty list of children is the walk of the first
child; the walk of the list ends there or goes on with the other children. -/
theorem walkChildren_inv {σ : Type} (F : NodeRendererFunc σ) (s : σ) (parent : Option Node)
    (c : Node) (cs : List Node) (s' : σ) (st : WalkStatus) (err : Option Error)
    (h : walkChildren F s parent (c :: cs) = .ok (s', st, err)) :
    ∃ s1 st1 e1, walkHelper F s parent c = .ok (s1, st1, e1) ∧
      ((s' = s1 ∧ st = .WalkStop) ∨
        (st1 ≠ .WalkStop ∧ e1 = none ∧ walkChildren F s1 parent cs = .ok (s', st, err))) := by
  rw [walkChildren] at h
  rcases h1 : walkHelper F s parent c with p | ⟨s1, st1, e1⟩
  · simp [h1] at h
  · refine ⟨s1, st1, e1, rfl, ?_⟩
    simp only [h1] at h
    split at h
    · simp only [Except.ok.injEq, Prod.mk.injEq] at h
      exact Or.inl ⟨h.1.symm, h.2.1.symm⟩
    · rename_i hab
      simp only [Bool.or_eq_true, beq_iff_eq, not_or] at hab
      refine Or.inr ⟨hab.2, ?_, h⟩
      cases e1 with
      | none => rfl
      | some e => simp at hab

/-- The phases of the walk of a node that returns: the entry call; then either the walk
ends there, or the children are walked unless skipped; then either the walk ends with
`WalkStop`, or the exit call is made. -/
theorem walkHelper_inv {σ : Type} (F : NodeRendererFunc σ) (s : σ) (parent : Option Node)
    (d : Data) (a : Option (List Attribute)) (cs : List Node)
    (s' : σ) (st : WalkStatus) (err : Option Error)
    (h : walkHelper F s parent (.mk d a cs) = .ok (s', st, err)) :
    ∃ s1 st1 e1, F s parent (.mk d a cs) true = .ok (s1, st1, e1) ∧
      (((e1.isSome = true ∨ st1 = .WalkStop) ∧ s' = s1 ∧ st = st1 ∧ err = e1) ∨
       (e1 = none ∧ st1 ≠ .WalkStop ∧
        ∃ s2, ((st1 = .WalkSkipChildren ∧ s2 = s1) ∨
            (st1 ≠ .WalkSkipChildren ∧
              ∃ st2 e2, walkChildren F s1 (some (.mk d a cs)) cs = .ok (s2, st2, e2) ∧
                (st = .WalkContinue ∧ err = none → st2 = .WalkContinue ∧ e2 = none))) ∧
          ((s' = s2 ∧ st = .WalkStop) ∨
           ∃ st3 e3, F s2 parent (.mk d a cs) false = .ok (s', st3, e3)))) := by
  rw [walkHelper] at h
  rcases h1 : F s parent (.mk d a cs) true with p | ⟨s1, st1, e1⟩
  · simp [h1] at h
  · refine ⟨s1, st1, e1, rfl, ?_⟩
    simp only [h1] at h
    split at h
    · rename_i hab
      simp only [Bool.or_eq_true, beq_iff_eq] at hab
      simp only [Except.ok.injEq, Prod.mk.injEq] at h
      exact Or.inl ⟨hab, h.1.symm, h.2.1.symm, h.2.2.symm⟩
    · rename_i hab
      simp only [Bool.or_eq_true, beq_iff_eq, not_or] at hab
      have he1 : e1 = none := by
        cases e1 with
        | none => rfl
        | some e => simp at hab
      refine Or.inr ⟨he1, hab.2, ?_⟩
      by_cases hskip : st1 = .WalkSkipChildren
      · refine ⟨s1, Or.inl ⟨hskip, rfl⟩, ?_⟩
        have hne : (st1 != .WalkSkipChildren) = false := by simp [hskip]
        simp only [hne, Bool.false_eq_true, if_false, Option.isSome_none, Bool.false_or,
          beq_iff_eq, reduceCtorEq] at h
        rcases h3 : F s1 parent (.mk d a cs) false with p | ⟨s3, st3, e3⟩
        · simp [h3] at h
        · simp only [h3] at h
          refine Or.inr ⟨st3, e3, ?_⟩
          split at h <;> simp only [Except.ok.injEq, Prod.mk.injEq] at h <;> rw [h.1]
      · have hne : (st1 != .WalkSkipChildren) = true := by simp [hskip]
        simp only [hne, if_true] at h
        rcases h2 : walkChildren F s1 (some (.mk d a cs)) cs with p | ⟨s2, st2, e2⟩
        · simp [h2] at h
        · simp only [h2] at h
          have hst := walkChildren_status F _ cs _ _ _ _ h2
          split at h
          · rename_i hab2
            simp only [Except.ok.injEq, Prod.mk.injEq] at h
            refine ⟨s2, Or.inr ⟨hskip, st2, e2, rfl, ?_⟩, Or.inl ⟨h.1.symm, h.2.1.symm⟩⟩
            intro hc2
            rw [← h.2.1] at hc2
            exact absurd hc2.1 (by simp)
          · rename_i hab2
            simp only [Bool.or_eq_true, beq_iff_eq, not_or] at hab2
            have hcomplete : st2 = .WalkContinue ∧ e2 = none := by
              rcases hst with hcn | hstop
              · exact hcn
              · exact absurd hstop hab2.2
            refine ⟨s2, Or.inr ⟨hskip, st2, e2, rfl, fun _ => hcomplete⟩, ?_⟩
            rcases h3 : F s2 parent (.mk d a cs) false with p | ⟨s3, st3, e3⟩
            · simp [h3] at h
            · simp only [h3] at h
              refine Or.inr ⟨st3, e3, ?_⟩
              split at h <;> simp only [Except.ok.injEq, Prod.mk.injEq] at h <;> rw [h.1]

/-! ## The renderers on the tallying writer -/

/-- Only a paragraph opens a figure, and then its only child is an image that opens a
figcaption. -/
theorem opensFigure_iff (n : Node) :
    opensFigure n = true ↔
      n.Kind = .KindParagraph ∧ ∃ c, n.children = [c] ∧ opensFigcaption (some n) c = true := by
  have hs := isFigure_some n
  unfold opensFigure
  obtain ⟨d, a, cs⟩ := n
  rcases cs with _ | ⟨c, _ | ⟨c2, cs⟩⟩
  · simp [hs, Node.children]
  · rw [hs]
    cases hk : decide ((Node.mk d a [c]).Kind = .KindParagraph) <;>
      cases hi : decide (c.Kind = .KindImage) <;> cases hc : c.HasChildren <;>
      simp_all [Node.children, opensFigcaption, andAlso, isFigure_some]
  · simp [hs, Node.children]

/-- Under a parent that is not a figure no child opens a figcaption. -/
theorem opensFigcaption_of_not_figure (p c : Node) (h : opensFigure p = false) :
    opensFigcaption (some p) c = false := by
  unfold opensFigure at h
  unfold opensFigcaption
  rw [isFigure_some] at h ⊢
  cases hc : c.HasChildren <;> simp_all [andAlso]

/-- A node that is not a paragraph is not a figure. -/
theorem opensFigure_of_not_paragraph (n : Node) (h : n.Kind ≠ .KindParagraph) :
    opensFigure n = false := by
  cases ho : opensFigure n
  · rfl
  · exact absurd ((opensFigure_iff n).1 ho).1 h

/-- The tally of `renderParagraph`: one more figure on entry when the node is a figure,
nothing else. -/
theorem tally_paragraph (r : render) (H : Host) (s : Tally) (n : Node) :
    r.renderParagraph H tallyWriter s n true =
      .ok ({ lt := false, figures := s.figures + (if opensFigure n then 1 else 0),
             openings := s.openings, closings := s.closings }, .WalkContinue, none) ∧
    r.renderParagraph H tallyWriter s n false =
      .ok ({ lt := false, figures := s.figures, openings := s.openings,
             closings := s.closings }, .WalkContinue, none) := by
  have hs := isFigure_some n
  unfold opensFigure
  rw [hs]
  generalize (decide (n.Kind = .KindParagraph) &&
    match n.children with
    | [c] => decide (c.Kind = .KindImage) && c.HasChildren
    | _ => false) = b at hs
  constructor
  · cases b <;> cases ha : n.Attributes <;>
      simp [render.renderParagraph, hs, ha, tallyWriter, bind, Except.bind, pure, Except.pure]
  · cases b <;>
      simp [render.renderParagraph, hs, tallyWriter, bind, Except.bind, pure, Except.pure]

/-- The tally of `renderImage` when its figure test does not panic: one more opening on
entry and one more closing on exit when the image opens a figcaption, nothing else. -/
theorem tally_image (r : render) (H : Host) (s : Tally) (parent : Option Node) (n : Node)
    (d : String) (t : Option String) (b : Bool)
    (hd : n.data = .Image d t)
    (htest : andAlso n.HasChildren (isFigure parent) = .ok b) :
    opensFigcaption parent n = b ∧
    r.renderImage H tallyWriter s parent n true =
      .ok ({ lt := false, figures := s.figures,
             openings := s.openings + (if b then 1 else 0), closings := s.closings },
        (if b then .WalkContinue else .WalkSkipChildren), none) ∧
    r.renderImage H tallyWriter s parent n false =
      .ok ((if b then { lt := false, figures := s.figures, openings := s.openings,
                        closings := s.closings + 1 } else s), .WalkContinue, none) := by
  have hk := kind_of_image n d t hd
  refine ⟨?_, ?_, ?_⟩
  · cases b <;> simp [opensFigcaption, hk, htest]
  · cases b <;> cases ha : n.Attributes <;> cases t <;> cases hx : r.Config.XHTML <;>
      cases hu : r.Config.Unsafe <;> cases hdg : H.IsDangerousURL d <;>
      simp [render.renderImage, hd, htest, ha, hx, hu, hdg, tallyWriter, bind, Except.bind,
        pure, Except.pure]
  · cases b <;>
      simp [render.renderImage, htest, tallyWriter, bind, Except.bind, pure, Except.pure]

/-- The tally of one call of the registered function for a node, when the last write
before it was not the byte `<`: a figure is counted on entry to a figure paragraph, an
opening on entry to and a closing on exit from an image that opens a figcaption, and
nothing else; the call for a paragraph and the call for an image return a nil error
and do not stop the walk. -/
theorem tally_call (r : render) (H : Host) (hq : writesNoFigcaption H) (s : Tally)
    (parent : Option Node) (n : Node) (entering : Bool)
    (s1 : Tally) (st1 : WalkStatus) (e1 : Option Error)
    (hlt : s.lt = false)
    (h : nodeRendererFuncs r H tallyWriter s parent n entering = .ok (s1, st1, e1)) :
    s1.lt = false ∧
    s1.figures = s.figures + (if entering && opensFigure n then 1 else 0) ∧
    s1.openings = s.openings + (if entering && opensFigcaption parent n then 1 else 0) ∧
    s1.closings = s.closings + (if !entering && opensFigcaption parent n then 1 else 0) ∧
    (n.Kind = .KindParagraph → st1 = .WalkContinue ∧ e1 = none) ∧
    (n.Kind = .KindImage → e1 = none ∧ st1 ≠ .WalkStop ∧
      (entering = true → opensFigcaption parent n = false → st1 = .WalkSkipChildren)) := by
  by_cases hp : n.Kind = .KindParagraph
  · rw [nodeRendererFuncs_paragraph _ _ _ _ _ _ _ hp] at h
    have hcap : opensFigcaption parent n = false := by simp [opensFigcaption, hp]
    have ht := tally_paragraph r H s n
    cases entering
    · rw [ht.2] at h
      simp only [Except.ok.injEq, Prod.mk.injEq] at h
      obtain ⟨rfl, rfl, rfl⟩ := h
      simp [hp, hcap]
    · rw [ht.1] at h
      simp only [Except.ok.injEq, Prod.mk.injEq] at h
      obtain ⟨rfl, rfl, rfl⟩ := h
      simp [hp, hcap]
  · have hfig : opensFigure n = false := opensFigure_of_not_paragraph n hp
    by_cases hi : n.Kind = .KindImage
    · rw [nodeRendererFuncs_image _ _ _ _ _ _ _ hi] at h
      have hd : ∃ d t, n.data = .Image d t := by
        unfold Node.Kind at hi
        cases hdat : n.data <;> simp [hdat] at hi
        exact ⟨_, _, rfl⟩
      obtain ⟨d, t, hd⟩ := hd
      rcases htest : andAlso n.HasChildren (isFigure parent) with p | b
      · cases entering <;>
          simp [render.renderImage, hd, htest, bind, Except.bind] at h
      · have ht := tally_image r H s parent n d t b hd htest
        cases entering
        · rw [ht.2.2] at h
          simp only [Except.ok.injEq, Prod.mk.injEq] at h
          obtain ⟨rfl, rfl, rfl⟩ := h
          cases b <;> simp [hp, hfig, ht.1, hlt]
        · rw [ht.2.1] at h
          simp only [Except.ok.injEq, Prod.mk.injEq] at h
          obtain ⟨rfl, rfl, rfl⟩ := h
          cases b <;> simp [hp, hfig, ht.1]
    · have hcap : opensFigcaption parent n = false := by simp [opensFigcaption, hi]
      have hreg : r.RegisterFuncs H tallyWriter n.Kind = none := by
        cases hk : n.Kind <;> simp_all [render.RegisterFuncs]
      simp only [nodeRendererFuncs, hreg, Host.nodeRendererFunc] at h
      cases hf : H.nodeRenderers n.Kind with
      | none =>
        simp only [hf, Except.ok.injEq, Prod.mk.injEq] at h
        obtain ⟨rfl, rfl, rfl⟩ := h
        simp [hp, hi, hfig, hcap, hlt]
      | some f =>
        have hne := hq n.Kind f hf parent n entering
        simp only [hf, Except.ok.injEq, Prod.mk.injEq] at h
        obtain ⟨rfl, rfl, rfl⟩ := h
        simp [hp, hi, hfig, hcap, hlt, tallyWriter, hne.1, hne.2]

/-- Among the children of a node, the ones that open a figcaption are as many as the
figures the node opens: its only child if the node is a figure, none otherwise. -/
theorem countP_opensFigcaption (n : Node) :
    n.children.countP (opensFigcaption (some n)) = if opensFigure n then 1 else 0 := by
  cases ho : opensFigure n
  · have hall : ∀ c ∈ n.children, ¬ opensFigcaption (some n) c = true := by
      intro c _
      simp [opensFigcaption_of_not_figure n c ho]
    simpa using List.countP_eq_zero.2 hall
  · obtain ⟨_, c, hc, hcap⟩ := (opensFigure_iff n).1 ho
    simp [hc, hcap]

mutual
/-- The balance of a walk on the tallying writer: the walk of a node opens as many
figcaptions as figures, and one more when the node itself is an image that opens a
figcaption (the figure is then opened by its parent). -/
theorem walkHelper_balance (r : render) (H : Host) (hq : writesNoFigcaption H) :
    ∀ (n : Node) (s : Tally) (parent : Option Node) (s' : Tally) (st : WalkStatus)
      (err : Option Error), s.lt = false →
      walkHelper (nodeRendererFuncs r H tallyWriter) s parent n = .ok (s', st, err) →
      s'.lt = false ∧
      s'.openings + s.figures =
        s'.figures + s.openings + (if opensFigcaption parent n then 1 else 0)
  | .mk d a cs, s, parent, s', st, err, hlt, h => by
    obtain ⟨s1, st1, e1, hentry, halt⟩ := walkHelper_inv _ s parent d a cs s' st err h
    obtain ⟨hlt1, hfig1, hop1, _, hpar, himg⟩ :=
      tally_call r H hq s parent (.mk d a cs) true s1 st1 e1 hlt hentry
    simp only [Bool.true_and] at hfig1 hop1
    have hK := countP_opensFigcaption (.mk d a cs)
    simp only [Node.children] at hK
    rcases halt with ⟨hab, rfl, _, _⟩ | ⟨he1, hs1, s2, hchildren, hexit⟩
    · have hnf : opensFigure (.mk d a cs) = false := by
        cases ho : opensFigure (.mk d a cs)
        · rfl
        · obtain ⟨hc, he⟩ := hpar ((opensFigure_iff _).1 ho).1
          subst hc he
          simp at hab
      rw [hnf] at hfig1
      refine ⟨hlt1, ?_⟩
      simp only [Bool.false_eq_true, if_false, Nat.add_zero] at hfig1
      omega
    · have h2 : s2.lt = false ∧
          s2.openings + s1.figures =
            s2.figures + s1.openings + (if opensFigure (.mk d a cs) then 1 else 0) := by
        rcases hchildren with ⟨hskip, rfl⟩ | ⟨_, st2, e2, hwalk, _⟩
        · have hnf : opensFigure (.mk d a cs) = false := by
            cases ho : opensFigure (.mk d a cs)
            · rfl
            · obtain ⟨hc, _⟩ := hpar ((opensFigure_iff _).1 ho).1
              rw [hc] at hskip
              exact absurd hskip (by simp)
          simp only [hnf, hlt1, Bool.false_eq_true, if_false, Nat.add_zero, true_and]
          omega
        · have hlen : opensFigure (.mk d a cs) = false ∨ cs.length ≤ 1 := by
            cases ho : opensFigure (.mk d a cs)
            · exact Or.inl rfl
            · obtain ⟨_, c, hc, _⟩ := (opensFigure_iff _).1 ho
              simp only [Node.children] at hc
              right; simp [hc]
          have := walkChildren_balance r H hq cs s1 (.mk d a cs) s2 st2 e2 hlt1 hlen hwalk
          rw [hK] at this
          exact this
      rcases hexit with ⟨rfl, _⟩ | ⟨st3, e3, hex⟩
      · refine ⟨h2.1, ?_⟩
        have := h2.2
        split at this <;> split at hfig1 <;> simp_all <;> omega
      · obtain ⟨hlt3, hfig3, hop3, _, _, _⟩ :=
          tally_call r H hq s2 parent (.mk d a cs) false s' st3 e3 h2.1 hex
        simp only [Bool.false_and, Bool.false_eq_true, if_false, Nat.add_zero] at hfig3 hop3
        refine ⟨hlt3, ?_⟩
        have := h2.2
        split at this <;> split at hfig1 <;> simp_all <;> omega
/-- The balance of the walk of the children of a node: they open as many figcaptions as
figures, and as many more as there are children that open a figcaption themselves. -/
theorem walkChildren_balance (r : render) (H : Host) (hq : writesNoFigcaption H) :
    ∀ (cs : List Node) (s : Tally) (p : Node) (s' : Tally) (st : WalkStatus)
      (err : Option Error), s.lt = false →
      (opensFigure p = false ∨ cs.length ≤ 1) →
      walkChildren (nodeRendererFuncs r H tallyWriter) s (some p) cs = .ok (s', st, err) →
      s'.lt = false ∧
      s'.openings + s.figures =
        s'.figures + s.openings + cs.countP (opensFigcaption (some p))
  | [], s, p, s', st, err, hlt, _, h => by
    simp only [walkChildren, Except.ok.injEq, Prod.mk.injEq] at h
    obtain ⟨rfl, _, _⟩ := h
    simp only [hlt, List.countP_nil, Nat.add_zero, true_and]
    omega
  | c :: cs, s, p, s', st, err, hlt, hlen, h => by
    obtain ⟨s1, st1, e1, hc, halt⟩ := walkChildren_inv _ s (some p) c cs s' st err h
    obtain ⟨hlt1, hb1⟩ := walkHelper_balance r H hq c s (some p) s1 st1 e1 hlt hc
    have hrest : cs.countP (opensFigcaption (some p)) = 0 := by
      rcases hlen with hnf | hl
      · apply List.countP_eq_zero.2
        intro x _
        simp [opensFigcaption_of_not_figure p x hnf]
      · have : cs = [] := by
          cases cs with
          | nil => rfl
          | cons x xs => simp at hl
        simp [this]
    rw [List.countP_cons, hrest]
    rcases halt with ⟨rfl, _⟩ | ⟨_, _, hwalk⟩
    · refine ⟨hlt1, ?_⟩
      simp only [Nat.zero_add]
      exact hb1
    · have hlen2 : opensFigure p = false ∨ cs.length ≤ 1 := by
        rcases hlen with hnf | hl
        · exact Or.inl hnf
        · right; simp only [List.length_cons] at hl; omega
      obtain ⟨hlt2, hb2⟩ := walkChildren_balance r H hq cs s1 p s' st err hlt1 hlen2 hwalk
      rw [hrest] at hb2
      refine ⟨hlt2, ?_⟩
      omega
end

/-! ## Walks that do not panic -/

/-- A call of the registered function for a node returns, unless the node is an image
whose figure test panics. -/
theorem call_ok {σ : Type} (r : render) (H : Host) (W : BufWriter σ) (s : σ)
    (parent : Option Node) (n : Node) (entering : Bool)
    (hroot : n.Kind = .KindImage → ∃ b, andAlso n.HasChildren (isFigure parent) = .ok b) :
    ∃ res, nodeRendererFuncs r H W s parent n entering = .ok res := by
  by_cases hp : n.Kind = .KindParagraph
  · rw [nodeRendererFuncs_paragraph _ _ _ _ _ _ _ hp]
    obtain ⟨w', hw⟩ := renderParagraph_ok r H W s n entering
    exact ⟨_, hw⟩
  · by_cases hi : n.Kind = .KindImage
    · rw [nodeRendererFuncs_image _ _ _ _ _ _ _ hi]
      have hd : ∃ d t, n.data = .Image d t := by
        unfold Node.Kind at hi
        cases hdat : n.data <;> simp [hdat] at hi
        exact ⟨_, _, rfl⟩
      obtain ⟨d, t, hd⟩ := hd
      obtain ⟨b, hb⟩ := hroot hi
      have h := renderImage_ok r H W s parent n d t b hd hb
      cases entering
      · obtain ⟨w', hw⟩ := h.2
        exact ⟨_, hw⟩
      · obtain ⟨w', hw⟩ := h.1
        exact ⟨_, hw⟩
    · have hreg : r.RegisterFuncs H W n.Kind = none := by
        cases hk : n.Kind <;> simp_all [render.RegisterFuncs]
      simp only [nodeRendererFuncs, hreg, Host.nodeRendererFunc]
      cases hf : H.nodeRenderers n.Kind <;> exact ⟨_, rfl⟩

mutual
/-- The walk of a node returns, unless the node is an image whose figure test panics:
below the node every image has a parent. -/
theorem walkHelper_ok {σ : Type} (r : render) (H : Host) (W : BufWriter σ) :
    ∀ (n : Node) (s : σ) (parent : Option Node),
      (n.Kind = .KindImage → ∃ b, andAlso n.HasChildren (isFigure parent) = .ok b) →
      ∃ res, walkHelper (nodeRendererFuncs r H W) s parent n = .ok res
  | .mk d a cs, s, parent, hroot => by
    rw [walkHelper]
    obtain ⟨⟨s1, st1, e1⟩, h1⟩ := call_ok r H W s parent (.mk d a cs) true hroot
    simp only [h1]
    split
    · exact ⟨_, rfl⟩
    · have h2 : ∃ res, (if (st1 != .WalkSkipChildren) = true then
            walkChildren (nodeRendererFuncs r H W) s1 (some (.mk d a cs)) cs
          else .ok (s1, .WalkContinue, none)) = .ok res := by
        split
        · exact walkChildren_ok r H W cs s1 (.mk d a cs)
        · exact ⟨_, rfl⟩
      obtain ⟨⟨s2, st2, e2⟩, h2⟩ := h2
      rw [h2]
      simp only
      split
      · exact ⟨_, rfl⟩
      · obtain ⟨⟨s3, st3, e3⟩, h3⟩ := call_ok r H W s2 parent (.mk d a cs) false hroot
        simp only [h3]
        split <;> exact ⟨_, rfl⟩
/-- The walk of the children of a node returns. -/
theorem walkChildren_ok {σ : Type} (r : render) (H : Host) (W : BufWriter σ) :
    ∀ (cs : List Node) (s : σ) (p : Node),
      ∃ res, walkChildren (nodeRendererFuncs r H W) s (some p) cs = .ok res
  | [], s, p => ⟨_, rfl⟩
  | c :: cs, s, p => by
    rw [walkChildren]
    obtain ⟨⟨s1, st1, e1⟩, h1⟩ := walkHelper_ok r H W c s (some p)
      (fun _ => andAlso_isFigure_some c.HasChildren p)
    simp only [h1]
    split
    · exact ⟨_, rfl⟩
    · exact walkChildren_ok r H W cs s1 p
end

/-! ## Inline content -/

mutual
/-- The walk of a node without paragraphs, under a parent that is not a figure, writes
no figcaption opening and no figcaption closing. -/
theorem walkHelper_inline (r : render) (H : Host) (hq : writesNoFigcaption H) :
    ∀ (n : Node) (s : Tally) (p : Node) (s' : Tally) (st : WalkStatus)
      (err : Option Error), s.lt = false → n.noParagraph = true → opensFigure p = false →
      walkHelper (nodeRendererFuncs r H tallyWriter) s (some p) n = .ok (s', st, err) →
      s'.lt = false ∧ s'.openings = s.openings ∧ s'.closings = s.closings
  | .mk d a cs, s, p, s', st, err, hlt, hnp, hpf, h => by
    obtain ⟨s1, st1, e1, hentry, halt⟩ := walkHelper_inv _ s (some p) d a cs s' st err h
    have hcap : opensFigcaption (some p) (.mk d a cs) = false :=
      opensFigcaption_of_not_figure p _ hpf
    simp only [Node.noParagraph, Bool.and_eq_true, bne_iff_ne, ne_eq] at hnp
    have hk : (Node.mk d a cs).Kind ≠ .KindParagraph := by
      intro hkp
      unfold Node.Kind at hkp
      simp only [Node.data] at hkp
      cases d <;> simp at hkp
      exact hnp.1 rfl
    have hnf : opensFigure (.mk d a cs) = false := opensFigure_of_not_paragraph _ hk
    obtain ⟨hlt1, _, hop1, hcl1, _, _⟩ :=
      tally_call r H hq s (some p) (.mk d a cs) true s1 st1 e1 hlt hentry
    simp only [hcap, Bool.and_false, Bool.false_eq_true, if_false, Nat.add_zero] at hop1 hcl1
    rcases halt with ⟨_, rfl, _, _⟩ | ⟨_, _, s2, hchildren, hexit⟩
    · exact ⟨hlt1, hop1, hcl1⟩
    · have h2 : s2.lt = false ∧ s2.openings = s1.openings ∧ s2.closings = s1.closings := by
        rcases hchildren with ⟨_, rfl⟩ | ⟨_, st2, e2, hwalk, _⟩
        · exact ⟨hlt1, rfl, rfl⟩
        · exact walkChildren_inline r H hq cs s1 (.mk d a cs) s2 st2 e2 hlt1 hnp.2 hnf hwalk
      rcases hexit with ⟨rfl, _⟩ | ⟨st3, e3, hex⟩
      · exact ⟨h2.1, h2.2.1.trans hop1, h2.2.2.trans hcl1⟩
      · obtain ⟨hlt3, _, hop3, hcl3, _, _⟩ :=
          tally_call r H hq s2 (some p) (.mk d a cs) false s' st3 e3 h2.1 hex
        simp only [hcap, Bool.and_false, Bool.false_eq_true, if_false, Nat.add_zero]
          at hop3 hcl3
        exact ⟨hlt3, hop3.trans (h2.2.1.trans hop1), hcl3.trans (h2.2.2.trans hcl1)⟩
/-- The walk of a list of nodes without paragraphs, under a parent that is not a figure,
writes no figcaption opening and no figcaption closing. -/
theorem walkChildren_inline (r : render) (H : Host) (hq : writesNoFigcaption H) :
    ∀ (cs : List Node) (s : Tally) (p : Node) (s' : Tally) (st : WalkStatus)
      (err : Option Error), s.lt = false → Node.noParagraphs cs = true →
      opensFigure p = false →
      walkChildren (nodeRendererFuncs r H tallyWriter) s (some p) cs = .ok (s', st, err) →
      s'.lt = false ∧ s'.openings = s.openings ∧ s'.closings = s.closings
  | [], s, p, s', st, err, hlt, _, _, h => by
    simp only [walkChildren, Except.ok.injEq, Prod.mk.injEq] at h
    obtain ⟨rfl, _, _⟩ := h
    exact ⟨hlt, rfl, rfl⟩
  | c :: cs, s, p, s', st, err, hlt, hnp, hpf, h => by
    simp only [Node.noParagraphs, Bool.and_eq_true] at hnp
    obtain ⟨s1, st1, e1, hc, halt⟩ := walkChildren_inv _ s (some p) c cs s' st err h
    obtain ⟨hlt1, hop1, hcl1⟩ := walkHelper_inline r H hq c s p s1 st1 e1 hlt hnp.1 hpf hc
    rcases halt with ⟨rfl, _⟩ | ⟨_, _, hwalk⟩
    · exact ⟨hlt1, hop1, hcl1⟩
    · obtain ⟨hlt2, hop2, hcl2⟩ :=
        walkChildren_inline r H hq cs s1 p s' st err hlt1 hnp.2 hpf hwalk
      exact ⟨hlt2, hop2.trans hop1, hcl2.trans hcl1⟩
end

/-! ## The host of the examples -/

/-- The host's `util.EscapeHTML` leaves no `<`. -/
theorem exampleEscapeHTML_clean (v : String) : '<' ∉ (exampleEscapeHTML v).data := by
  have hb : ∀ c : Char, '<' ∉ (escapeByte c).data := by
    intro c
    unfold escapeByte
    split
    · decide
    · split
      · decide
      · split
        · decide
        · split
          · decide
          · rename_i h _ _
            simp only [String.singleton, String.push, List.nil_append, List.mem_singleton]
            exact fun hc => h hc.symm
  simp only [exampleEscapeHTML, String.data_join, List.mem_flatten, List.mem_map,
    not_exists, not_and]
  rintro l ⟨s, ⟨c, _, rfl⟩, rfl⟩
  exact hb c

/-- The renderers of the host of the examples write no figcaption tag. -/
theorem exampleHost_writesNoFigcaption : writesNoFigcaption exampleHost := by
  have hcl : ∀ x : String, '<' ∉ x.data →
      x ≠ "\n<figcaption>" ∧ x ≠ "</figcaption>\n" := by
    intro x hx
    constructor <;> (intro h; subst h; exact hx (by decide))
  have hesc := exampleEscapeHTML_clean
  intro kind f hf p n e
  cases kind <;> simp only [exampleHost, exampleNodeRenderers, Option.some.injEq,
    reduceCtorEq] at hf
  · subst hf
    simp
  · subst hf
    dsimp only
    cases hd : n.data with
    | Text v soft =>
      apply hcl
      cases e <;> cases soft <;> simp [hesc]
    | _ => simp
  · subst hf
    dsimp only
    cases hd : n.data with
    | Emphasis level =>
      by_cases h2 : level = 2 <;> cases e <;> simp [h2]
    | _ => simp
  · subst hf
    dsimp only
    cases hd : n.data with
    | Link dest t =>
      cases e
      · simp
      · simp only [if_true]
        constructor
        · intro h
          have := congrArg (fun x => x.data.head?) h
          simp at this
        · intro h
          have := congrArg (fun x => (x.data.drop 1).head?) h
          simp at this
    | _ => simp

/-! ## Counting figcaptions -/

/-- The walk of an image that opens a figcaption and holds no paragraph writes one
figcaption opening, and one figcaption closing unless the walk is stopped inside. -/
theorem walk_caption_image (r : render) (H : Host) (hq : writesNoFigcaption H)
    (s : Tally) (parent : Option Node) (I : Node) (s' : Tally) (st : WalkStatus)
    (err : Option Error)
    (hlt : s.lt = false) (hk : I.Kind = .KindImage)
    (hopen : opensFigcaption parent I = true)
    (hnp : Node.noParagraphs I.children = true)
    (h : walkHelper (nodeRendererFuncs r H tallyWriter) s parent I = .ok (s', st, err)) :
    s'.lt = false ∧ s'.openings = s.openings + 1 ∧
      (s'.closings = s.closings + 1 ∨ (s'.closings = s.closings ∧ st = .WalkStop)) := by
  obtain ⟨d, a, cs⟩ := I
  simp only [Node.children] at hnp
  obtain ⟨s1, st1, e1, hentry, halt⟩ := walkHelper_inv _ s parent d a cs s' st err h
  obtain ⟨hlt1, _, hop1, hcl1, _, himg⟩ :=
    tally_call r H hq s parent (.mk d a cs) true s1 st1 e1 hlt hentry
  simp only [hopen, Bool.and_true, Bool.not_true, Bool.true_and, if_true, Bool.false_eq_true,
    if_false, Nat.add_zero] at hop1 hcl1
  obtain ⟨he1, hs1, _⟩ := himg hk
  have hnf : opensFigure (.mk d a cs) = false :=
    opensFigure_of_not_paragraph _ (by rw [hk]; simp)
  rcases halt with ⟨hab, _, _, _⟩ | ⟨_, _, s2, hchildren, hexit⟩
  · rcases hab with hab | hab
    · simp [he1] at hab
    · exact absurd hab hs1
  · have h2 : s2.lt = false ∧ s2.openings = s1.openings ∧ s2.closings = s1.closings := by
      rcases hchildren with ⟨_, rfl⟩ | ⟨_, st2, e2, hwalk, _⟩
      · exact ⟨hlt1, rfl, rfl⟩
      · exact walkChildren_inline r H hq cs s1 (.mk d a cs) s2 st2 e2 hlt1 hnp hnf hwalk
    rcases hexit with ⟨rfl, hstop⟩ | ⟨st3, e3, hex⟩
    · exact ⟨h2.1, h2.2.1.trans hop1, Or.inr ⟨h2.2.2.trans hcl1, hstop⟩⟩
    · obtain ⟨hlt3, _, hop3, hcl3, _, _⟩ :=
        tally_call r H hq s2 parent (.mk d a cs) false s' st3 e3 h2.1 hex
      simp only [hopen, Bool.and_true, Bool.not_false, Bool.false_and, if_true,
        Bool.false_eq_true, if_false, Nat.add_zero] at hop3 hcl3
      refine ⟨hlt3, ?_, Or.inl ?_⟩
      · rw [hop3, h2.2.1, hop1]
      · rw [hcl3, h2.2.2, hcl1]

/-- The walk of a figure paragraph whose caption holds no paragraph returns, and writes
one figcaption opening and at most one figcaption closing: exactly one when the walk
ends with `WalkContinue` and a nil error. -/
theorem walk_figure_tally (r : render) (H : Host) (hq : writesNoFigcaption H)
    (s : Tally) (parent : Option Node) (P I : Node)
    (hP : P.Kind = .KindParagraph) (hPI : P.children = [I]) (hk : I.Kind = .KindImage)
    (hne : I.children ≠ []) (hnp : Node.noParagraphs I.children = true) :
    ∃ s' st err, walkHelper (nodeRendererFuncs r H tallyWriter) s parent P = .ok (s', st, err) ∧
      s'.openings = s.openings + 1 ∧ s'.closings ≤ s.closings + 1 ∧
      (st = .WalkContinue ∧ err = none → s'.closings = s.closings + 1) := by
  obtain ⟨⟨s', st, err⟩, hwalk⟩ := walkHelper_ok r H tallyWriter P s parent
    (fun hki => by rw [hP] at hki; exact absurd hki (by simp))
  refine ⟨s', st, err, hwalk, ?_⟩
  have hIc : I.HasChildren = true := (hasChildren_iff I).2 hne
  have hfig : isFigure (some P) = .ok true := by
    rw [isFigure_some]; simp [hP, hPI, hk, hIc]
  have hopen : opensFigcaption (some P) I = true := by
    simp [opensFigcaption, hk, andAlso, hIc, hfig]
  have hcapP : opensFigcaption parent P = false := by simp [opensFigcaption, hP]
  obtain ⟨dP, aP, csP⟩ := P
  simp only [Node.children] at hPI
  subst hPI
  obtain ⟨s1, st1, e1, hentry, halt⟩ := walkHelper_inv _ s parent dP aP [I] s' st err hwalk
  rw [nodeRendererFuncs_paragraph _ _ _ _ _ _ _ hP, (tally_paragraph r H s _).1] at hentry
  simp only [Except.ok.injEq, Prod.mk.injEq] at hentry
  obtain ⟨hs1, hst1, he1⟩ := hentry
  have hlt1 : s1.lt = false := by rw [← hs1]
  have hop1 : s1.openings = s.openings := by rw [← hs1]
  have hcl1 : s1.closings = s.closings := by rw [← hs1]
  rcases halt with ⟨hab, _, _, _⟩ | ⟨_, _, s2, hchildren, hexit⟩
  · rw [← hst1, ← he1] at hab
    simp at hab
  · rcases hchildren with ⟨hskip, _⟩ | ⟨_, st2, e2, hch, hcomplete⟩
    · rw [← hst1] at hskip
      exact absurd hskip (by simp)
    · obtain ⟨sI, stI, eI, hI, haltI⟩ := walkChildren_inv _ s1 _ I [] s2 st2 e2 hch
      obtain ⟨hltI, hopI, hclI⟩ :=
        walk_caption_image r H hq s1 _ I sI stI eI hlt1 hk hopen hnp hI
      have hs2 : s2 = sI ∧ (st2 ≠ .WalkStop → stI ≠ .WalkStop) := by
        rcases haltI with ⟨h2, hstop⟩ | ⟨hns, _, hnil⟩
        · exact ⟨h2, fun h => absurd hstop h⟩
        · simp only [walkChildren, Except.ok.injEq, Prod.mk.injEq] at hnil
          exact ⟨hnil.1.symm, fun _ => hns⟩
      obtain ⟨rfl, hstI⟩ := hs2
      have hfinal : s'.openings = s2.openings ∧ s'.closings = s2.closings := by
        rcases hexit with ⟨rfl, _⟩ | ⟨st3, e3, hex⟩
        · exact ⟨rfl, rfl⟩
        · obtain ⟨_, _, hop3, hcl3, _, _⟩ :=
            tally_call r H hq s2 parent _ false s' st3 e3 hltI hex
          simp only [hcapP, Bool.and_false, Bool.false_eq_true, if_false, Nat.add_zero]
            at hop3 hcl3
          exact ⟨hop3, hcl3⟩
      refine ⟨by rw [hfinal.1, hopI, hop1], ?_, ?_⟩
      · have h2 := hfinal.2
        rcases hclI with h | ⟨h, _⟩ <;> omega
      · intro hc
        obtain ⟨hc2, _⟩ := hcomplete hc
        have hns : stI ≠ .WalkStop := hstI (by rw [hc2]; simp)
        rcases hclI with h | ⟨_, hstop⟩
        · rw [hfinal.2, h, hcl1]
        · exact absurd hstop hns

/-! ## Walks that run to their end -/

/-- A call of the registered function for a node that returns neither asks to stop the
walk nor returns an error, when the host's own renderers do neither. -/
theorem call_continues {σ : Type} (r : render) (H : Host) (W : BufWriter σ)
    (hs : neverStops H) (s : σ) (parent : Option Node) (n : Node) (entering : Bool)
    (s' : σ) (st : WalkStatus) (err : Option Error)
    (h : nodeRendererFuncs r H W s parent n entering = .ok (s', st, err)) :
    st ≠ .WalkStop ∧ err = none := by
  by_cases hp : n.Kind = .KindParagraph
  · rw [nodeRendererFuncs_paragraph _ _ _ _ _ _ _ hp] at h
    obtain ⟨w', hw⟩ := renderParagraph_ok r H W s n entering
    rw [hw] at h
    simp only [Except.ok.injEq, Prod.mk.injEq] at h
    obtain ⟨_, rfl, rfl⟩ := h
    exact ⟨by simp, rfl⟩
  · by_cases hi : n.Kind = .KindImage
    · rw [nodeRendererFuncs_image _ _ _ _ _ _ _ hi] at h
      have hd : ∃ d t, n.data = .Image d t := by
        unfold Node.Kind at hi
        cases hdat : n.data <;> simp [hdat] at hi
        exact ⟨_, _, rfl⟩
      obtain ⟨d, t, hd⟩ := hd
      rcases htest : andAlso n.HasChildren (isFigure parent) with p | b
      · cases entering <;>
          simp [render.renderImage, hd, htest, bind, Except.bind] at h
      · have hok := renderImage_ok r H W s parent n d t b hd htest
        cases entering
        · obtain ⟨w', hw⟩ := hok.2
          rw [hw] at h
          simp only [Except.ok.injEq, Prod.mk.injEq] at h
          obtain ⟨_, rfl, rfl⟩ := h
          exact ⟨by simp, rfl⟩
        · obtain ⟨w', hw⟩ := hok.1
          rw [hw] at h
          simp only [Except.ok.injEq, Prod.mk.injEq] at h
          obtain ⟨_, rfl, rfl⟩ := h
          exact ⟨by cases b <;> simp, rfl⟩
    · have hreg : r.RegisterFuncs H W n.Kind = none := by
        cases hk : n.Kind <;> simp_all [render.RegisterFuncs]
      simp only [nodeRendererFuncs, hreg, Host.nodeRendererFunc] at h
      cases hf : H.nodeRenderers n.Kind with
      | none =>
        simp only [hf, Except.ok.injEq, Prod.mk.injEq] at h
        obtain ⟨_, rfl, rfl⟩ := h
        exact ⟨by simp, rfl⟩
      | some f =>
        simp only [hf, Except.ok.injEq, Prod.mk.injEq] at h
        obtain ⟨_, rfl, rfl⟩ := h
        exact hs _ f hf parent n entering

mutual
/-- The walk of a node that returns runs to its end, with `WalkContinue` and a nil
error, when the host's own renderers neither stop the walk nor return an error. -/
theorem walkHelper_completes {σ : Type} (r : render) (H : Host) (W : BufWriter σ)
    (hs : neverStops H) :
    ∀ (n : Node) (s : σ) (parent : Option Node) (s' : σ) (st : WalkStatus)
      (err : Option Error),
      walkHelper (nodeRendererFuncs r H W) s parent n = .ok (s', st, err) →
      st = .WalkContinue ∧ err = none
  | .mk d a cs, s, parent, s', st, err, h => by
    rw [walkHelper] at h
    rcases h1 : nodeRendererFuncs r H W s parent (.mk d a cs) true with p | ⟨s1, st1, e1⟩
    · simp [h1] at h
    · obtain ⟨hns1, rfl⟩ := call_continues r H W hs s parent _ true s1 st1 _ h1
      simp only [h1] at h
      split at h
      · rename_i hab
        simp [hns1] at hab
      · have hexit : ∀ s2 : σ,
            (match nodeRendererFuncs r H W s2 parent (.mk d a cs) false with
              | .error p => .error p
              | .ok (w, status, err) =>
                if err.isSome || status == .WalkStop then .ok (w, .WalkStop, err)
                else .ok (w, .WalkContinue, none)) = Except.ok (s', st, err) →
            st = .WalkContinue ∧ err = none := by
          intro s2 hx
          rcases h3 : nodeRendererFuncs r H W s2 parent (.mk d a cs) false with
            p | ⟨s3, st3, e3⟩
          · simp [h3] at hx
          · obtain ⟨hns3, rfl⟩ := call_continues r H W hs s2 parent _ false s3 st3 _ h3
            simp only [h3] at hx
            split at hx
            · rename_i hab
              simp [hns3] at hab
            · simp only [Except.ok.injEq, Prod.mk.injEq] at hx
              exact ⟨hx.2.1.symm, hx.2.2.symm⟩
        by_cases hskip : st1 = .WalkSkipChildren
        · have hne : (st1 != .WalkSkipChildren) = false := by simp [hskip]
          simp only [hne, Bool.false_eq_true, if_false, Option.isSome_none, Bool.false_or,
            beq_iff_eq, reduceCtorEq] at h
          exact hexit s1 (by simpa using h)
        · have hne : (st1 != .WalkSkipChildren) = true := by simp [hskip]
          simp only [hne, if_true] at h
          rcases h2 : walkChildren (nodeRendererFuncs r H W) s1 (some (.mk d a cs)) cs with
            p | ⟨s2, st2, e2⟩
          · simp [h2] at h
          · obtain ⟨rfl, rfl⟩ :=
              walkChildren_completes r H W hs cs s1 (.mk d a cs) s2 st2 e2 h2
            simp only [h2] at h
            split at h
            · rename_i hab
              simp at hab
            · exact hexit s2 h
/-- The walk of the children of a node that returns runs to its end. -/
theorem walkChildren_completes {σ : Type} (r : render) (H : Host) (W : BufWriter σ)
    (hs : neverStops H) :
    ∀ (cs : List Node) (s : σ) (p : Node) (s' : σ) (st : WalkStatus) (err : Option Error),
      walkChildren (nodeRendererFuncs r H W) s (some p) cs = .ok (s', st, err) →
      st = .WalkContinue ∧ err = none
  | [], s, p, s', st, err, h => by
    simp only [walkChildren, Except.ok.injEq, Prod.mk.injEq] at h
    exact ⟨h.2.1.symm, h.2.2.symm⟩
  | c :: cs, s, p, s', st, err, h => by
    rw [walkChildren] at h
    rcases h1 : walkHelper (nodeRendererFuncs r H W) s (some p) c with q | ⟨s1, st1, e1⟩
    · simp [h1] at h
    · obtain ⟨rfl, rfl⟩ := walkHelper_completes r H W hs c s (some p) s1 st1 e1 h1
      simp only [h1] at h
      split at h
      · rename_i hab
        simp at hab
      · exact walkChildren_completes r H W hs cs s1 p s' st err h
end

/-- The renderers of the host of the examples neither stop the walk nor return an
error. -/
theorem exampleHost_neverStops : neverStops exampleHost := by
  intro kind f hf p n e
  cases kind <;> simp only [exampleHost, exampleNodeRenderers, Option.some.injEq,
    reduceCtorEq] at hf
  · subst hf
    simp
  · subst hf
    dsimp only
    cases hd : n.data <;> simp
  · subst hf
    dsimp only
    cases hd : n.data <;> simp
  · subst hf
    dsimp only
    cases hd : n.data <;> simp

/-- C15, as the code has it: on entry to an image whose parent is not a paragraph
`renderImage` writes the img tag and nothing after it and returns `WalkSkipChildren`,
and on exit it writes nothing and returns `WalkContinue`.  Hence the walk of a figure
paragraph whose caption holds no paragraph returns with exactly one figcaption opening
written and at most one figcaption closing, exactly one when the walk runs to its end,
as it does when the host's own renderers neither stop the walk nor return an error;
and the walk of any paragraph returns with as many figcaption openings written as
figure openings. -/
theorem figcaptions_never_nest (r : render) (H : Host) :
    (∀ (w : String) (p I : Node) (d : String) (t : Option String),
      I.data = .Image d t → p.Kind ≠ .KindParagraph →
      r.renderImage H bufWriter w (some p) I true =
        .ok (w ++ imgTag r H d t I, .WalkSkipChildren, none) ∧
      r.renderImage H bufWriter w (some p) I false = .ok (w, .WalkContinue, none)) ∧
    (writesNoFigcaption H →
      ∀ (s : Tally) (parent : Option Node) (P I : Node),
        P.Kind = .KindParagraph → P.children = [I] → I.Kind = .KindImage →
        I.children ≠ [] → Node.noParagraphs I.children = true →
        ∃ s' st err,
          walkHelper (nodeRendererFuncs r H tallyWriter) s parent P = .ok (s', st, err) ∧
          s'.openings = s.openings + 1 ∧ s'.closings ≤ s.closings + 1 ∧
          (st = .WalkContinue ∧ err = none → s'.closings = s.closings + 1)) ∧
    (writesNoFigcaption H → neverStops H →
      ∀ (s : Tally) (parent : Option Node) (P I : Node),
        P.Kind = .KindParagraph → P.children = [I] → I.Kind = .KindImage →
        I.children ≠ [] → Node.noParagraphs I.children = true →
        ∃ s',
          walkHelper (nodeRendererFuncs r H tallyWriter) s parent P =
            .ok (s', .WalkContinue, none) ∧
          s'.openings = s.openings + 1 ∧ s'.closings = s.closings + 1) ∧
    (writesNoFigcaption H →
      ∀ (s : Tally) (parent : Option Node) (P : Node),
        s.lt = false → P.Kind = .KindParagraph →
        ∃ s' st err,
          walkHelper (nodeRendererFuncs r H tallyWriter) s parent P = .ok (s', st, err) ∧
          s'.openings + s.figures = s'.figures + s.openings) := by
  refine ⟨?_, ?_, ?_, ?_⟩
  · intro w p I d t hd hp
    have hf : isFigure (some p) = .ok false := by
      rw [isFigure_some]; simp [hp]
    have htest : andAlso I.HasChildren (isFigure (some p)) = .ok false := by
      cases hc : I.HasChildren <;> simp [andAlso, hf]
    rw [renderImage_enter r H w (some p) I d t false hd htest,
      renderImage_exit r H w (some p) I false htest]
    simp
  · intro hq s parent P I hP hPI hk hne hnp
    exact walk_figure_tally r H hq s parent P I hP hPI hk hne hnp
  · intro hq hs s parent P I hP hPI hk hne hnp
    obtain ⟨s', st, err, hwalk, hop, _, hcl⟩ :=
      walk_figure_tally r H hq s parent P I hP hPI hk hne hnp
    obtain ⟨rfl, rfl⟩ := walkHelper_completes r H tallyWriter hs P s parent s' st err hwalk
    exact ⟨s', hwalk, hop, hcl ⟨rfl, rfl⟩⟩
  · intro hq s parent P hlt hP
    obtain ⟨⟨s', st, err⟩, hwalk⟩ := walkHelper_ok r H tallyWriter P s parent
      (fun hki => by rw [hP] at hki; exact absurd hki (by simp))
    refine ⟨s', st, err, hwalk, ?_⟩
    have hb := (walkHelper_balance r H hq P s parent s' st err hlt hwalk).2
    have hcap : opensFigcaption parent P = false := by simp [opensFigcaption, hP]
    rw [hcap] at hb
    simpa using hb

/-- An image under the emphasis of a caption opens no figcaption, and the walk of the
figure of the example writes one figure opening, one figcaption opening and one
figcaption closing. -/
theorem figcaptions_never_nest_example :
    (defaultRenderer.renderImage exampleHost bufWriter "" (some (.mk (.Emphasis 2) none
        [exampleImage])) exampleImage true =
      .ok ("<img src=\"image.png\" alt=\"Figure: description\" title=\"title\">",
        .WalkSkipChildren, none)) ∧
    (∃ s',
      walkHelper (nodeRendererFuncs defaultRenderer exampleHost tallyWriter) ⟨false, 0, 0, 0⟩
        none exampleFigure = .ok (s', .WalkContinue, none) ∧
      s'.openings = 1 ∧ s'.closings = 1) ∧
    tallyOf (walkHelper (nodeRendererFuncs defaultRenderer exampleHost tallyWriter)
      ⟨false, 0, 0, 0⟩ none exampleFigure) = some (1, 1, 1) :=
  have h := figcaptions_never_nest defaultRenderer exampleHost
  ⟨(h.1 "" (.mk (.Emphasis 2) none [exampleImage]) exampleImage "image.png" (some "title")
      rfl (by decide)).1,
    h.2.2.1 exampleHost_writesNoFigcaption exampleHost_neverStops ⟨false, 0, 0, 0⟩ none
      exampleFigure exampleImage rfl rfl rfl (List.cons_ne_nil _ _) rfl,
    by decide⟩

/-- A figure paragraph whose caption holds a figure paragraph: the walk writes
`<figcaption>` twice and `</figcaption>` twice, the second figcaption inside the
first. -/
theorem figcaption_inside_figcaption :
    isFigure (some nestedFigure) = .ok true ∧
    walkHelper (nodeRendererFuncs defaultRenderer exampleHost bufWriter) "" none
        nestedFigure =
      .ok ("<figure>\n<img src=\"a.png\" alt=\"x\">\n<figcaption><figure>\n" ++
        "<img src=\"b.png\" alt=\"x\">\n<figcaption>x</figcaption>\n</figure>\n" ++
        "</figcaption>\n</figure>\n", .WalkContinue, none) ∧
    tallyOf (walkHelper (nodeRendererFuncs defaultRenderer exampleHost tallyWriter)
      ⟨false, 0, 0, 0⟩ none nestedFigure) = some (2, 2, 2) :=
  ⟨rfl, rfl, by decide⟩

/-- When a renderer of the host stops the walk inside the caption, the figcaption
opening is written and the figcaption closing is not. -/
theorem walk_stopped_in_caption :
    walkHelper (nodeRendererFuncs defaultRenderer stoppingHost bufWriter) "" none
        exampleFigure =
      .ok ("<figure>\n<img src=\"image.png\" alt=\"Figure: description\" title=\"title\">" ++
        "\n<figcaption><strong>", .WalkStop, none) ∧
    tallyOf (walkHelper (nodeRendererFuncs defaultRenderer stoppingHost tallyWriter)
      ⟨false, 0, 0, 0⟩ none exampleFigure) = some (1, 1, 0) :=
  ⟨rfl, by decide⟩

/-! ## The test of `renderImage` in a well-formed tree -/

/-- C14, as the code has it: for an image that is among the children of its parent, the
test `node.HasChildren() && isFigure(node.Parent())` of `renderImage` equals
`isFigure(node.Parent())`: the image writes the opening and the closing of a
figcaption when its parent is classified as a figure, and neither when it is not.  A
walk started at a node, under any parent, writes one figcaption opening more than
figure openings when the node is an image whose figure test holds (its figure is
opened by its parent, outside the walk), and as many figcaption openings as figure
openings otherwise, as in every walk from the root of a tree; and the walk returns
unless it starts at an image with children and a nil parent. -/
theorem hasChildren_redundant (r : render) (H : Host) (p node : Node) (d : String)
    (t : Option String) (hwf : node ∈ p.children) (hd : node.data = .Image d t) :
    andAlso node.HasChildren (isFigure (some p)) = isFigure (some p) ∧
    (isFigure (some p) = .ok true →
      (∀ w : String, r.renderImage H bufWriter w (some p) node true =
        .ok (w ++ imgTag r H d t node ++ "\n<figcaption>", .WalkContinue, none)) ∧
      (∀ w : String, r.renderImage H bufWriter w (some p) node false =
        .ok (w ++ "</figcaption>\n", .WalkContinue, none))) ∧
    (isFigure (some p) = .ok false →
      (∀ w : String, r.renderImage H bufWriter w (some p) node true =
        .ok (w ++ imgTag r H d t node, .WalkSkipChildren, none)) ∧
      (∀ w : String, r.renderImage H bufWriter w (some p) node false =
        .ok (w, .WalkContinue, none))) ∧
    (writesNoFigcaption H →
      ∀ (parent : Option Node) (root : Node) (s s' : Tally) (st : WalkStatus)
        (err : Option Error),
        s.lt = false →
        walkHelper (nodeRendererFuncs r H tallyWriter) s parent root = .ok (s', st, err) →
        ((root.Kind = .KindImage ∧
            andAlso root.HasChildren (isFigure parent) = .ok true) →
          s'.openings + s.figures = s'.figures + s.openings + 1) ∧
        (¬ (root.Kind = .KindImage ∧
            andAlso root.HasChildren (isFigure parent) = .ok true) →
          s'.openings + s.figures = s'.figures + s.openings) ∧
        (parent = none → s'.openings + s.figures = s'.figures + s.openings)) ∧
    (∀ (parent : Option Node) (root : Node) (s : Tally),
      (parent ≠ none ∨ root.HasChildren = false ∨ root.Kind ≠ .KindImage) →
      ∃ res, walkHelper (nodeRendererFuncs r H tallyWriter) s parent root = .ok res) := by
  have hred : andAlso node.HasChildren (isFigure (some p)) = isFigure (some p) := by
    cases hc : node.HasChildren
    · have hs := isFigure_some p
      rcases hch : p.children with _ | ⟨c, _ | ⟨c2, cs⟩⟩
      · rw [hch] at hwf; simp at hwf
      · rw [hch] at hwf
        simp only [List.mem_singleton] at hwf
        subst hwf
        simp [andAlso, hs, hch, hc]
      · simp [andAlso, hs, hch]
    · simp [andAlso]
  refine ⟨hred, ?_, ?_, ?_, ?_⟩
  · intro hf
    have htest : andAlso node.HasChildren (isFigure (some p)) = .ok true := hred.trans hf
    constructor
    · intro w
      rw [renderImage_enter r H w (some p) node d t true hd htest]
      simp
    · intro w
      rw [renderImage_exit r H w (some p) node true htest]
      simp
  · intro hf
    have htest : andAlso node.HasChildren (isFigure (some p)) = .ok false := hred.trans hf
    constructor
    · intro w
      rw [renderImage_enter r H w (some p) node d t false hd htest]
      simp
    · intro w
      rw [renderImage_exit r H w (some p) node false htest]
      simp
  · intro hq parent root s s' st err hlt hwalk
    have hb := (walkHelper_balance r H hq root s parent s' st err hlt hwalk).2
    have hno : ¬ (root.Kind = .KindImage ∧
          andAlso root.HasChildren (isFigure parent) = .ok true) →
        s'.openings + s.figures = s'.figures + s.openings := by
      intro hn
      have hcap : opensFigcaption parent root = false := by
        unfold opensFigcaption
        by_cases hk : root.Kind = .KindImage
        · have hne : andAlso root.HasChildren (isFigure parent) ≠ .ok true :=
            fun h => hn ⟨hk, h⟩
          rw [hk]
          split
          · rename_i h; exact absurd h hne
          · rfl
        · simp [hk]
      rw [hcap] at hb
      simpa using hb
    refine ⟨?_, hno, ?_⟩
    · rintro ⟨hk, ht⟩
      have hcap : opensFigcaption parent root = true := by
        simp [opensFigcaption, hk, ht]
      rw [hcap] at hb
      simpa using hb
    · intro hpn
      subst hpn
      apply hno
      rintro ⟨_, ht⟩
      cases hc : root.HasChildren <;> simp [andAlso, isFigure, hc] at ht
  · intro parent root s hsafe
    apply walkHelper_ok r H tallyWriter root s parent
    intro hi
    rcases hsafe with hp | hc | hk
    · cases parent with
      | none => exact absurd rfl hp
      | some q => exact andAlso_isFigure_some _ q
    · exact ⟨false, by simp [andAlso, hc]⟩
    · exact absurd hi hk

/-- The image of the example is the only child of its paragraph, a figure, and opens
and closes a figcaption there; the walk of the document of the example returns and
writes as many figcaption openings as figure openings, two of each; the walk of the
plain paragraph under the document writes none of either. -/
theorem hasChildren_redundant_example :
    andAlso exampleImage.HasChildren (isFigure (some exampleFigure)) =
      isFigure (some exampleFigure) ∧
    isFigure (some exampleFigure) = .ok true ∧
    (∀ w : String, defaultRenderer.renderImage exampleHost bufWriter w (some exampleFigure)
        exampleImage false = .ok (w ++ "</figcaption>\n", .WalkContinue, none)) ∧
    (∀ s' st err,
      walkHelper (nodeRendererFuncs defaultRenderer exampleHost tallyWriter) ⟨false, 0, 0, 0⟩
        none exampleDocument = .ok (s', st, err) → s'.openings + 0 = s'.figures + 0) ∧
    (∃ res,
      walkHelper (nodeRendererFuncs defaultRenderer exampleHost tallyWriter) ⟨false, 0, 0, 0⟩
        none exampleDocument = .ok res) ∧
    (∀ s' st err,
      walkHelper (nodeRendererFuncs defaultRenderer exampleHost tallyWriter) ⟨false, 0, 0, 0⟩
        (some exampleFigure) exampleImage = .ok (s', st, err) →
      s'.openings + 0 = s'.figures + 0 + 1) ∧
    tallyOf (walkHelper (nodeRendererFuncs defaultRenderer exampleHost tallyWriter)
      ⟨false, 0, 0, 0⟩ none exampleFigure) = some (1, 1, 1) :=
  have h := hasChildren_redundant defaultRenderer exampleHost exampleFigure exampleImage
    "image.png" (some "title") (List.mem_cons_self _ _) rfl
  ⟨h.1, rfl, (h.2.1 rfl).2,
    fun s' st err hw => (h.2.2.2.1 exampleHost_writesNoFigcaption none exampleDocument
      ⟨false, 0, 0, 0⟩ s' st err rfl hw).2.2 rfl,
    h.2.2.2.2 none exampleDocument ⟨false, 0, 0, 0⟩ (Or.inr (Or.inr (by decide))),
    fun s' st err hw => (h.2.2.2.1 exampleHost_writesNoFigcaption (some exampleFigure)
      exampleImage ⟨false, 0, 0, 0⟩ s' st err rfl hw).1 ⟨rfl, rfl⟩,
    by decide⟩

/-- The walk started at the image of the figure of the example, a node of a well-formed
tree with its parent, writes the opening and the closing of a figcaption and no
opening of a figure: one figcaption opening, no figure opening. -/
theorem walk_from_image_of_figure :
    exampleImage ∈ exampleFigure.children ∧
    walkHelper (nodeRendererFuncs defaultRenderer exampleHost bufWriter) ""
        (some exampleFigure) exampleImage =
      .ok ("<img src=\"image.png\" alt=\"Figure: description\" title=\"title\">\n" ++
        "<figcaption><strong>Figure:</strong> <a href=\"/link\">description</a>" ++
        "</figcaption>\n", .WalkContinue, none) ∧
    tallyOf (walkHelper (nodeRendererFuncs defaultRenderer exampleHost tallyWriter)
      ⟨false, 0, 0, 0⟩ (some exampleFigure) exampleImage) = some (0, 1, 1) :=
  ⟨List.mem_cons_self _ _, rfl, by decide⟩

end Figures
